import Mathlib

/-!
Shallow embedding of the EchoTalk presence worker:
the tiered display-name resolver with its persistent name cache
(src/presence-name-resolver.js) and the session state machine of the
poll loop (src/unnamed/part_000).

Conventions of the embedding:
* JS strings are Lean `String`; a JS value that can be `null`/`undefined`
  or a string is `Option String`, with the convention that the falsy
  empty string is mapped explicitly where the source tests truthiness.
* Timestamps (`Date.now()`) are `Nat` parameters threaded through.
* The asynchronous parts are irrelevant to the claims: each poll tick is
  a single atomic step (the source awaits every call inside the tick and
  the loop is single threaded), so a tick is a pure function from state
  and probe result to state and emitted events.
* `decodeURI` can throw `URIError` in JS; it is modelled as a function
  into `Option`, and `resolveDisplayName` consequently returns `Except
  Unit (String × CacheState)` where `Except.error ()` models a thrown
  exception propagating to the caller.
* Unicode fine points (`toLowerCase`, `trim`, `slice` counting UTF-16
  units) are modelled per character; the claims only exercise ASCII.
-/

namespace EchoTalk

/-- Characters treated as path separators by the win32 flavour of
`path.basename` (the worker targets Windows: the exclusion tables and the
Epic scan are Windows specific). POSIX `basename` would split on `/` only;
all concrete inputs in this file use `/` where the two agree. -/
def isSep (c : Char) : Bool := c = '/' || c = '\\'

/-- The whitespace class JS `trim`/`\s` uses, restricted to the members
that can occur in the data handled here (ASCII whitespace and NBSP). -/
def jsTrimWs (c : Char) : Bool :=
  c = ' ' || c = '\t' || c = '\n' || c = '\x0d' || c = '\x0b' || c = '\x0c' || c = '\u00a0'

/-- Model of `path.basename(fp)` (win32 semantics): trailing separators are
ignored, then everything after the last separator is returned. A path that
consists only of separators returns its first character, matching
`basename("/") = "/"`. Drive-root special cases (`"C:\\"`) are not
modelled; no claim exercises them. -/
def basenameJs (s : String) : String :=
  let cs := s.toList
  let t := (cs.reverse.dropWhile isSep).reverse
  if t = [] then ⟨cs.take 1⟩
  else ⟨(t.reverse.takeWhile (fun c => !isSep c)).reverse⟩

/-- Model of `(s || '').toLowerCase()` restricted to ASCII (per character;
the claims only exercise ASCII). -/
def lower (s : String) : String := ⟨s.data.map Char.toLower⟩

/-- Model of `s.trim()` (the JS whitespace set restricted to its ASCII
members plus NBSP, which is all that can appear here). -/
def trimJs (s : String) : String :=
  ⟨((s.data.dropWhile jsTrimWs).reverse.dropWhile jsTrimWs).reverse⟩

/-- Suffix test modelling `s.endsWith(t)` / a `$`-anchored regex. -/
def endsWithJs (s suffixStr : String) : Bool := suffixStr.data.isSuffixOf s.data

/-- Model of `String(n)` for the process id, and of `pid ?? ''`. -/
def optNatStr : Option Nat → String
  | none => ""
  | some n => toString n

/-- Model of `s.slice(0, n)` (the source only slices from 0). -/
def takeJs (n : Nat) (s : String) : String := ⟨s.toList.take n⟩

/-- Model of `ex.replace(/\.exe$/, '')`: strip one trailing `.exe`. -/
def stripExeSuffix (s : String) : String :=
  if endsWithJs s ".exe" then ⟨s.data.take (s.data.length - 4)⟩ else s

/-- Model of `s.charAt(0).toUpperCase() + s.slice(1)`. -/
def capitalizeJs (s : String) : String :=
  match s.toList with
  | [] => ""
  | c :: r => ⟨c.toUpper :: r⟩

/-- Model of `s.replace(/\\/g, '/')`. -/
def slashify (s : String) : String :=
  ⟨s.toList.map (fun c => if c = '\\' then '/' else c)⟩

/-- Hex digit value, as used by the `%XX` escapes of `decodeURI`. -/
def hexVal (c : Char) : Option Nat :=
  if '0' ≤ c ∧ c ≤ '9' then some (c.toNat - 48)
  else if 'a' ≤ c ∧ c ≤ 'f' then some (c.toNat - 87)
  else if 'A' ≤ c ∧ c ≤ 'F' then some (c.toNat - 55)
  else none

/-- The escapes `decodeURI` leaves encoded (`uriReserved` plus `#`):
`; / ? : @ & = + $ , #`. -/
def decodeURIReserved (b : Nat) : Bool :=
  b = 35 || b = 36 || b = 38 || b = 43 || b = 44 || b = 47 ||
  b = 58 || b = 59 || b = 61 || b = 63 || b = 64

/-- One lexical unit of the ECMAScript `Decode` algorithm: a plain
character, or a `%XX` escape carrying its byte value and the two original
hex digits (reserved escapes are re-emitted verbatim). -/
inductive Tok where
  | ch (c : Char)
  | esc (b : Nat) (h1 h2 : Char)
deriving DecidableEq, Repr

/-- First phase of `Decode`: cut the input into plain characters and
`%XX` escapes; a `%` not followed by two hex digits throws (`none`). -/
def pctTokens : List Char → Option (List Tok)
  | [] => some []
  | '%' :: rest =>
    match rest with
    | h1 :: h2 :: rest2 =>
      match hexVal h1, hexVal h2 with
      | some a, some bv => (pctTokens rest2).map (fun ts => Tok.esc (16 * a + bv) h1 h2 :: ts)
      | _, _ => none
    | _ => none
  | c :: rest => (pctTokens rest).map (fun ts => Tok.ch c :: ts)

/-- Second phase of `Decode`: plain characters pass through, reserved
escapes stay encoded, other escape bytes are decoded as strict UTF-8
whose continuation bytes must themselves come from escapes; any other
octet sequence throws (`none`), as `decodeURI` does. -/
def utf8Assemble : List Tok → Option (List Char)
  | [] => some []
  | Tok.ch c :: ts => (utf8Assemble ts).map (fun t => c :: t)
  | Tok.esc b h1 h2 :: ts =>
    if b < 128 then
      if decodeURIReserved b then (utf8Assemble ts).map (fun t => '%' :: h1 :: h2 :: t)
      else (utf8Assemble ts).map (fun t => Char.ofNat b :: t)
    else if 194 ≤ b ∧ b ≤ 223 then
      match ts with
      | [] => none
      | Tok.ch _ :: _ => none
      | Tok.esc b2 _ _ :: ts2 =>
        if 128 ≤ b2 ∧ b2 ≤ 191 then
          (utf8Assemble ts2).map (fun t => Char.ofNat ((b - 192) * 64 + (b2 - 128)) :: t)
        else none
    else if 224 ≤ b ∧ b ≤ 239 then
      match ts with
      | [] => none
      | Tok.ch _ :: _ => none
      | Tok.esc b2 _ _ :: ts1 =>
        match ts1 with
        | [] => none
        | Tok.ch _ :: _ => none
        | Tok.esc b3 _ _ :: ts2 =>
          if ((if b = 224 then 160 else 128) ≤ b2 ∧ b2 ≤ (if b = 237 then 159 else 191)) ∧
              (128 ≤ b3 ∧ b3 ≤ 191) then
            (utf8Assemble ts2).map
              (fun t => Char.ofNat ((b - 224) * 4096 + (b2 - 128) * 64 + (b3 - 128)) :: t)
          else none
    else if 240 ≤ b ∧ b ≤ 244 then
      match ts with
      | [] => none
      | Tok.ch _ :: _ => none
      | Tok.esc b2 _ _ :: ts1 =>
        match ts1 with
        | [] => none
        | Tok.ch _ :: _ => none
        | Tok.esc b3 _ _ :: ts2 =>
          match ts2 with
          | [] => none
          | Tok.ch _ :: _ => none
          | Tok.esc b4 _ _ :: ts3 =>
            if ((if b = 240 then 144 else 128) ≤ b2 ∧ b2 ≤ (if b = 244 then 143 else 191)) ∧
                (128 ≤ b3 ∧ b3 ≤ 191) ∧ (128 ≤ b4 ∧ b4 ≤ 191) then
              (utf8Assemble ts3).map
                (fun t => Char.ofNat ((b - 240) * 262144 + (b2 - 128) * 4096 +
                  (b3 - 128) * 64 + (b4 - 128)) :: t)
            else none
    else none

/-- The two phases composed. -/
def decodeCore (l : List Char) : Option (List Char) :=
  match pctTokens l with
  | some ts => utf8Assemble ts
  | none => none

/-- Model of JS `decodeURI`; `none` models a thrown `URIError`. -/
def decodeURIJs (s : String) : Option String :=
  (decodeCore s.toList).map (fun l => ⟨l⟩)

/-- Model of `.replace(/[_-]+/g, ' ')`: each maximal run of `_`/`-` becomes
one space. The flag records whether the previous character belonged to such
a run. -/
def deSlugAux : Bool → List Char → List Char
  | _, [] => []
  | inRun, c :: rest =>
    if c = '_' ∨ c = '-' then
      if inRun then deSlugAux true rest else ' ' :: deSlugAux true rest
    else c :: deSlugAux false rest

/-- Model of `name.replace(/[_-]+/g, ' ')`. -/
def deSlug (s : String) : String := ⟨deSlugAux false s.toList⟩

/-- Substring test (used to model the regular expressions of the source,
all of which are existence tests). -/
def containsSub (pat : List Char) : List Char → Bool
  | [] => pat.isEmpty
  | l@(_ :: rest) => pat.isPrefixOf l || containsSub pat rest

/-- Model of the match `lower(exePath).replace(/\\/g,'/').match(/steamapps\/common\/([^\x2f]+)/)`:
scan for an occurrence of `steamapps/common/` that is followed by at least
one character other than `/` (the regex backtracks to a later occurrence
when the first is followed by `/` or end of input) and capture the maximal
run of non-`/` characters. -/
def steamCommonCapture : List Char → Option (List Char)
  | [] => none
  | l@(_ :: rest) =>
    if ("steamapps/common/".toList).isPrefixOf l then
      if (l.drop 17).takeWhile (fun c => c ≠ '/') = [] then steamCommonCapture rest
      else some ((l.drop 17).takeWhile (fun c => c ≠ '/'))
    else steamCommonCapture rest

/-- String wrapper for `steamCommonCapture`. -/
def steamCommonFolder (s : String) : Option String :=
  (steamCommonCapture s.toList).map (fun l => ⟨l⟩)

/-- The JS `\s` character class, restricted to the characters that can
occur here (ASCII whitespace and NBSP; the exotic Unicode members are
irrelevant to lower-cased file-system paths). -/
def jsWs (c : Char) : Bool :=
  c = ' ' || c = '\t' || c = '\n' || c = '\x0d' || c = '\x0b' || c = '\x0c' || c = ' '

/-- Generic position scanner: `regex.test` succeeds iff the position test
succeeds at some suffix of the subject. -/
def scanPos (f : List Char → Bool) : List Char → Bool
  | [] => false
  | l@(_ :: rest) => f l || scanPos f rest

/-- Matcher for regexes of shape `lit1\s*lit2` (with `lit2` starting with a
non-whitespace character, so the greedy `\s*` needs no backtracking). -/
def litWsLit (p1 p2 : List Char) (l : List Char) : Bool :=
  scanPos (fun l => p1.isPrefixOf l && p2.isPrefixOf ((l.drop p1.length).dropWhile jsWs)) l

/-- `GAME_PATH_HINTS[0]`: `/steamapps[\/\\]common[\/\\]/i` on the
lower-cased path. -/
def hintSteamCommonSeg (l : List Char) : Bool :=
  containsSub "steamapps/common/".toList l || containsSub "steamapps/common\\".toList l ||
  containsSub "steamapps\\common/".toList l || containsSub "steamapps\\common\\".toList l

/-- `GAME_PATH_HINTS[1]`: `/\\steam\\.*\\common\\*/i` — a `\steam\`
occurrence followed, possibly later, by `\common` (the trailing `\*` is
zero-or-more and adds nothing to the existence test). -/
def hintSteamBackslash (l : List Char) : Bool :=
  scanPos (fun l => ("\\steam\\".toList).isPrefixOf l && containsSub "\\common".toList (l.drop 7)) l

/-- `GAME_PATH_HINTS[2]`: `/epic\s*games/i`. -/
def hintEpicGames (l : List Char) : Bool := litWsLit "epic".toList "games".toList l

/-- `GAME_PATH_HINTS[3]`: `/gog\s*galaxy[\/\\]games/i`. -/
def hintGogGalaxy (l : List Char) : Bool :=
  scanPos (fun l =>
    ("gog".toList).isPrefixOf l &&
      (let l2 := (l.drop 3).dropWhile jsWs
       ("galaxy".toList).isPrefixOf l2 &&
         (match l2.drop 6 with
          | c :: r => isSep c && ("games".toList).isPrefixOf r
          | [] => false))) l

/-- `GAME_PATH_HINTS[4]`: `/ubisoft\s*(connect|game\s*launcher)/i`. -/
def hintUbisoft (l : List Char) : Bool :=
  scanPos (fun l =>
    ("ubisoft".toList).isPrefixOf l &&
      (let l2 := (l.drop 7).dropWhile jsWs
       ("connect".toList).isPrefixOf l2 ||
         (("game".toList).isPrefixOf l2 &&
           ("launcher".toList).isPrefixOf ((l2.drop 4).dropWhile jsWs)))) l

/-- `GAME_PATH_HINTS[5]`: `/battle\.net/i`. -/
def hintBattleNet (l : List Char) : Bool := containsSub "battle.net".toList l

/-- `GAME_PATH_HINTS[6]`: `/origin[\/\\]|ea\s*(games|desktop)/i`. -/
def hintOriginEa (l : List Char) : Bool :=
  containsSub "origin/".toList l || containsSub "origin\\".toList l ||
    scanPos (fun l =>
      ("ea".toList).isPrefixOf l &&
        (let l2 := (l.drop 2).dropWhile jsWs
         ("games".toList).isPrefixOf l2 || ("desktop".toList).isPrefixOf l2)) l

/-- `GAME_PATH_HINTS[7]`: `/riot\s*games/i`. -/
def hintRiotGames (l : List Char) : Bool := litWsLit "riot".toList "games".toList l

/-- `GAME_PATH_HINTS[8]`: `/rockstar\s*games/i`. -/
def hintRockstarGames (l : List Char) : Bool := litWsLit "rockstar".toList "games".toList l

/-- `GAME_PATH_HINTS[9]`: `/xboxgames|microsoft\\xbox/i`. -/
def hintXbox (l : List Char) : Bool :=
  containsSub "xboxgames".toList l || containsSub "microsoft\\xbox".toList l

/-- `GAME_PATH_HINTS[10]`: `/games[\/\\](?=.*\.(exe|app))/i` — a `games`
directory segment whose remaining suffix mentions `.exe` or `.app` (`.`
not matching a newline is irrelevant to paths). -/
def hintGamesDir (l : List Char) : Bool :=
  scanPos (fun l =>
    ("games".toList).isPrefixOf l &&
      (match l.drop 5 with
       | c :: r => isSep c && (containsSub ".exe".toList r || containsSub ".app".toList r)
       | [] => false)) l

/-- `hasGameHint(p)`: lower-case the path and test the `GAME_PATH_HINTS`
patterns. -/
def hasGameHint (p : String) : Bool :=
  let l := (lower p).toList
  hintSteamCommonSeg l || hintSteamBackslash l || hintEpicGames l || hintGogGalaxy l ||
    hintUbisoft l || hintBattleNet l || hintOriginEa l || hintRiotGames l ||
    hintRockstarGames l || hintXbox l || hintGamesDir l

/-- Property lookup `obj[k]` on an association-list object (JS object
property access used for the caches, the known-executable map and the
library index). -/
def lookupKey (k : String) : List (String × String) → Option String
  | [] => none
  | (a, b) :: t => if a = k then some b else lookupKey k t

/-- `LAUNCHER_BASES` of the worker (launcher executables are ignored). -/
def LAUNCHER_BASES : List String :=
  ["steam.exe", "epicgameslauncher.exe", "battle.net.exe", "origin.exe", "ea desktop.exe"]

/-- `NON_GAME_BASES` of the worker (explicit non-game stop list). -/
def NON_GAME_BASES : List String :=
  ["chrome.exe", "msedge.exe", "firefox.exe", "opera.exe", "opera_gx.exe", "brave.exe",
   "vivaldi.exe", "iexplore.exe", "safari.exe",
   "discord.exe", "telegram.exe", "slack.exe", "teams.exe", "skype.exe",
   "outlook.exe", "winword.exe", "excel.exe", "powerpnt.exe", "thunderbird.exe",
   "code.exe", "goland64.exe", "idea64.exe", "pycharm64.exe", "webstorm64.exe",
   "clion64.exe", "studio64.exe", "devenv.exe", "sublime_text.exe", "notepad++.exe"]

/-- `KNOWN_EXE_MAP` of the worker, in source order. -/
def KNOWN_EXE_MAP : List (String × String) :=
  [("cs2.exe", "Counter-Strike 2"),
   ("csgo.exe", "Counter-Strike: Global Offensive"),
   ("dota2.exe", "Dota 2"),
   ("eldenring.exe", "ELDEN RING"),
   ("witcher3.exe", "The Witcher 3"),
   ("steam.exe", "Steam"),
   ("epicgameslauncher.exe", "Epic Games Launcher"),
   ("battle.net.exe", "Battle.net"),
   ("code.exe", "Visual Studio Code"),
   ("discord.exe", "Discord"),
   ("electron", "Electron App"),
   ("terminal", "Terminal")]

/-- `KNOWN_GEEK_SET` of the worker (the `sourceTree.exe` entry keeps its
source capitalisation). -/
def KNOWN_GEEK_SET : List String :=
  ["code.exe", "goland64.exe", "idea64.exe", "pycharm64.exe", "webstorm64.exe", "clion64.exe",
   "studio64.exe", "devenv.exe", "sublime_text.exe", "notepad++.exe",
   "powershell.exe", "wt.exe", "windowsterminal.exe", "conhost.exe", "cmd.exe", "wsl.exe",
   "git.exe", "gitkraken.exe", "sourceTree.exe", "docker desktop.exe", "docker.exe",
   "kubectl.exe",
   "postman.exe", "insomnia.exe", "dbeaver.exe", "tableplus.exe", "heidisql.exe",
   "pgadmin4.exe",
   "obsidian.exe", "figma.exe", "unity.exe", "ue4editor.exe", "unrealeditor.exe", "blender.exe",
   "discord.exe", "telegram.exe", "slack.exe"]

/-- Classification categories. -/
inductive Cat where
  | game
  | geek
  | other
deriving DecidableEq, Repr

/-- The classifier result `\x7bcategory, confidence\x7d`; the float
confidences 0.9 / 0.8 / 0.6 / 0.3 are represented exactly as rationals. -/
structure Classification where
  category : Cat
  confidence : ℚ
deriving DecidableEq, Repr

/-- `classify(base, fullPath)` of the worker. -/
def classify (base fullPath : String) : Classification :=
  let b := lower base
  if (lookupKey b KNOWN_EXE_MAP).isSome then ⟨Cat.game, 9 / 10⟩
  else if KNOWN_GEEK_SET.contains b then ⟨Cat.geek, 8 / 10⟩
  else if hasGameHint fullPath then ⟨Cat.game, 6 / 10⟩
  else ⟨Cat.other, 3 / 10⟩

namespace Worker

/-- `exeBase(fpOrName)` of the worker: basename, lower-cased, trimmed. -/
def exeBase (s : String) : String :=
  if s = "" then "" else trimJs (lower (basenameJs s))

end Worker

namespace Resolver

/-- `exeBase(fp)` of the resolver: basename lower-cased (no trim — this one
differs from the worker helper of the same name). -/
def exeBase (s : String) : String :=
  if s = "" then "" else lower (basenameJs s)

/-- State of the Name Cache plus the observable effects of its debounced
flush: `timerPending` models a live `saveCacheSoon` timer, `flushes`
counts how many flushes have been scheduled (each `setTimeout` call).
`byExe` and `byPath` are association lists standing for the two JS
objects. -/
structure CacheState where
  byExe : List (String × String)
  byPath : List (String × String)
  updatedAt : Nat
  timerPending : Bool
  flushes : Nat
deriving DecidableEq, Repr

/-- Assignment `obj[k] = v` on an association-list object: overwrite in
place when the key is present, append otherwise. -/
def setKey (l : List (String × String)) (k v : String) : List (String × String) :=
  if (lookupKey k l).isSome then l.map (fun kv => if kv.1 = k then (k, v) else kv)
  else l ++ [(k, v)]

/-- `saveCacheSoon()`: schedule a debounced flush unless a timer is already
pending (`if (timer) return; timer = setTimeout(...)`). The completion of
the timeout is modelled separately by `flushFire`. -/
def saveCacheSoon (c : CacheState) : CacheState :=
  if c.timerPending then c else { c with timerPending := true, flushes := c.flushes + 1 }

/-- The timeout body finishing (`timer = null` after the write attempt);
write failures do not change the in-memory cache, so the only state change
is the timer clearing. -/
def flushFire (c : CacheState) : CacheState := { c with timerPending := false }

/-- `putCache(exePath, name)` of the resolver, with `now` standing for the
`Date.now()` read on a mutation. -/
def putCache (c : CacheState) (now : Nat) (exePath name : String) : CacheState :=
  if name = "" then c
  else
    -- the source counts the touched keys (`touched`): key `ex` is touched
    -- when `ex` is truthy and `byExe[ex] !== name`, key `pLower` when
    -- `exePath` is truthy and `byPath[pLower] !== name`; any touched key
    -- bumps `updatedAt` and schedules the debounced flush
    if exeBase exePath ≠ "" ∧ lookupKey (exeBase exePath) c.byExe ≠ some name ∨
        exePath ≠ "" ∧ lookupKey (lower exePath) c.byPath ≠ some name then
      saveCacheSoon
        { c with
          byExe :=
            if exeBase exePath ≠ "" ∧ lookupKey (exeBase exePath) c.byExe ≠ some name then
              setKey c.byExe (exeBase exePath) name
            else c.byExe,
          byPath :=
            if exePath ≠ "" ∧ lookupKey (lower exePath) c.byPath ≠ some name then
              setKey c.byPath (lower exePath) name
            else c.byPath,
          updatedAt := now }
    else c

/-- Target platforms (`process.platform`). -/
inductive Platform where
  | win32
  | darwin
  | linux
deriving DecidableEq, Repr

/-- Environment of one resolver instance: the platform, the `knownMap`
passed to `createNameResolver`, the immutable `precomputedPaths` index
built by `warmup`, and the three OS-metadata probes (each returns the name
the probe would produce, or `none` — all three swallow their own I/O
errors in the source). -/
structure Env where
  platform : Platform
  knownMap : List (String × String)
  precomputed : List (String × String)
  fileDescription : String → Option String
  macBundle : String → Option String
  linuxDesktop : String → Option String

/-- JS truthiness filter on an optional string: `some ""` is falsy. -/
def truthyStr : Option String → Option String
  | some s => if s = "" then none else some s
  | none => none

/-- Tier 4, the platform metadata probe: the three platform-guarded `if`
blocks of the source (mutually exclusive because they test `platform`).
`fileDescriptionWindows` resolves `s || null` and its result is accepted
only when `fd && fd.length >= 3`; the mac branch requires the path to end
in `.app`; both the mac and linux helpers return a name or `null`. -/
def metadataName (env : Env) (exePath : String) : Option String :=
  match env.platform with
  | .win32 =>
    if exePath ≠ "" then
      match env.fileDescription exePath with
      | some fd => if fd ≠ "" ∧ 3 ≤ fd.length then some fd else none
      | none => none
    else none
  | .darwin =>
    if exePath ≠ "" ∧ endsWithJs exePath ".app" then truthyStr (env.macBundle exePath) else none
  | .linux =>
    if exePath ≠ "" then truthyStr (env.linuxDesktop exePath) else none

/-- The resolver-side key `ex = exeBase(exePath) || lower(processName)`. -/
def exKey (exePath processName : String) : String :=
  if exeBase exePath ≠ "" then exeBase exePath else lower processName

/-- `resolveDisplayName({exePath, processName, windowTitle})`: the seven
resolution tiers, in source order. `Except.error ()` models the one
uncaught exception site, `decodeURI` throwing `URIError` in the steam path
heuristic; every other failure falls through to the next tier. On success
the returned `CacheState` reflects the `putCache` write-back the winning
tier performed (tiers 1 and 2 return the cache unchanged). -/
def resolveDisplayName (env : Env) (c : CacheState) (now : Nat)
    (exePath processName windowTitle : String) : Except Unit (String × CacheState) :=
  -- `ex = exeBase(exePath) || lower(processName)` is `exKey exePath processName`
  -- 1) KNOWN
  match (if exKey exePath processName ≠ "" then
           lookupKey (exKey exePath processName) env.knownMap else none) with
  | some name => .ok (name, c)
  | none =>
  -- 2) CACHE, by executable basename then by full path
  match (if exKey exePath processName ≠ "" then
           truthyStr (lookupKey (exKey exePath processName) c.byExe) else none) with
  | some name => .ok (name, c)
  | none =>
  match (if exePath ≠ "" then truthyStr (lookupKey (lower exePath) c.byPath) else none) with
  | some name => .ok (name, c)
  | none =>
  -- 3) PRECOMPUTED (Steam/Epic index); the `precomputedPaths.size` guard
  -- only short-circuits the lookup and cannot change the outcome
  match (if exePath ≠ "" ∧ env.precomputed ≠ [] then
           truthyStr (lookupKey (lower exePath) env.precomputed) else none) with
  | some found => .ok (found, putCache c now exePath found)
  | none =>
  -- 4) FILE METADATA
  match metadataName env exePath with
  | some nm => .ok (nm, putCache c now exePath nm)
  | none =>
  -- 5) WINDOW TITLE
  if windowTitle ≠ "" ∧ 3 ≤ (trimJs windowTitle).length then
    .ok (takeJs 80 (trimJs windowTitle),
      putCache c now (if exePath ≠ "" then exePath else exKey exePath processName)
        (takeJs 80 (trimJs windowTitle)))
  else
  -- 6) steam path heuristic — the only tier that can throw
  match (if exePath ≠ "" then steamCommonFolder (slashify (lower exePath)) else none) with
  | some folder =>
    match decodeURIJs folder with
    | none => .error ()
    | some dec => .ok (deSlug dec, putCache c now exePath (deSlug dec))
  | none =>
  -- 7) fallback: basename without .exe, capitalized, else the sentinel
  if stripExeSuffix (exKey exePath processName) ≠ "" then
    .ok (capitalizeJs (stripExeSuffix (exKey exePath processName)),
      putCache c now (if exePath ≠ "" then exePath else exKey exePath processName)
        (capitalizeJs (stripExeSuffix (exKey exePath processName))))
  else
    .ok ("Unknown App",
      putCache c now (if exePath ≠ "" then exePath else exKey exePath processName) "Unknown App")

end Resolver

namespace Worker

/-- `x || null` for a string: the empty string becomes `null`. -/
def strOpt (s : String) : Option String := if s = "" then none else some s

/-- The worker constants. -/
def ACTIVE_STALE_MS : Nat := 5000

/-- Heartbeat interval of the worker. -/
def HEARTBEAT_MS : Nat := 5000

/-- Poll period of the worker (recorded for completeness; the tick
relation below abstracts over when ticks happen). -/
def POLL_ACTIVE_MS : Nat := 1000

/-- The event payload built by `buildPresencePayload` plus the
`category`/`confidence` fields spread over it in `pollActive`. The always
`null` field `extra` is omitted; `ts` is the `Date.now()` of the tick. -/
structure Payload where
  source : String
  pid : Option Nat
  exePath : Option String
  exeName : Option String
  displayName : Option String
  title : Option String
  app : Option String
  ts : Nat
  category : Cat
  confidence : ℚ
deriving DecidableEq, Repr

/-- One active session (`currentActive`). -/
structure ActiveSession where
  signature : String
  pid : Option Nat
  startedAt : Nat
  lastSeen : Nat
  payload : Payload
deriving DecidableEq, Repr

/-- The worker module state mutated by `pollActive`: the single optional
session, the heartbeat stamp, and the resolver cache it drives. -/
structure WorkerState where
  currentActive : Option ActiveSession
  lastHeartbeatAt : Nat
  cache : Resolver.CacheState
deriving DecidableEq, Repr

/-- Events sent with `process.send` (`presence:update`,
`presence:heartbeat`, `presence:ended`); the ended payload carries the
extra `endedAt` stamp. -/
inductive Event where
  | update (p : Payload)
  | heartbeat (p : Payload)
  | ended (p : Payload) (endedAt : Nat)
deriving DecidableEq, Repr

/-- What `await activeWin()` produced on a tick: a thrown error, `null`,
or a window record. A malformed-but-truthy record is a `win` whose string
fields are empty (that is how the optional chaining in the source reads
it). -/
structure Win where
  ownerPath : String
  ownerName : String
  title : String
  processId : Option Nat
deriving DecidableEq, Repr

/-- Probe outcome of one tick. -/
inductive Probe where
  | err
  | noWin
  | win (w : Win)
deriving DecidableEq, Repr

/-- `const exePath = aw.owner?.path || aw.owner?.name || ''`. -/
def wExePath (w : Win) : String :=
  if w.ownerPath ≠ "" then w.ownerPath else w.ownerName

/-- `const base = exeBase(exePath || procName)`; since `exePath` already
fell back to the owner name, the argument is `wExePath w` (when it is
empty the process name is empty too). -/
def wBase (w : Win) : String := exeBase (wExePath w)

/-- The launcher / non-game gate of `pollActive`. -/
def snapshotExcluded (w : Win) : Bool :=
  LAUNCHER_BASES.contains (wBase w) || NON_GAME_BASES.contains (wBase w)

/-- The relevance gate of `pollActive`: games, geek tools, or game paths. -/
def snapshotQualifies (w : Win) : Bool :=
  let cls := classify (wBase w) (wExePath w)
  cls.category = Cat.game || cls.category = Cat.geek || hasGameHint (wExePath w)

/-- `[exePath, title, procName, aw.owner?.processId ?? ''].join('|')`. -/
def winSignature (w : Win) : String :=
  wExePath w ++ "|" ++ w.title ++ "|" ++ w.ownerName ++ "|" ++ optNatStr w.processId

/-- `buildPresencePayload` plus the category/confidence spread. -/
def mkPayload (exe title procName : String) (pid : Option Nat) (displayName : String)
    (now : Nat) (cls : Classification) : Payload where
  source := "active"
  pid := pid
  exePath := strOpt exe
  exeName := strOpt (exeBase exe)
  displayName := strOpt displayName
  title := strOpt title
  app := strOpt procName
  ts := now
  category := cls.category
  confidence := cls.confidence

/-- The signature the payload of a session or event denotes (its fields
store exactly the four joined strings, with `''` as `null`). -/
def sigOfPayload (p : Payload) : String :=
  p.exePath.getD "" ++ "|" ++ p.title.getD "" ++ "|" ++ p.app.getD "" ++ "|" ++ optNatStr p.pid

/-- `finishCurrentIfStale()`: end the session when the last qualifying
snapshot is older than the staleness threshold. -/
def finishCurrentIfStale (st : WorkerState) (now : Nat) : WorkerState × List Event :=
  match st.currentActive with
  | some cur =>
    if ACTIVE_STALE_MS < now - cur.lastSeen then
      ({ st with currentActive := none }, [Event.ended cur.payload now])
    else (st, [])
  | none => (st, [])

/-- The same-window branch of `pollActive`: refresh `lastSeen` and emit a
heartbeat when the interval elapsed. -/
def sameSigStep (st : WorkerState) (cur : ActiveSession) (now : Nat) : WorkerState × List Event :=
  if HEARTBEAT_MS ≤ now - st.lastHeartbeatAt then
    ({ st with currentActive := some { cur with lastSeen := now }, lastHeartbeatAt := now },
      [Event.heartbeat cur.payload])
  else ({ st with currentActive := some { cur with lastSeen := now } }, [])

/-- The new-session branch of `pollActive`: `endedEvs` is the ended event
already sent for a replaced session. When the resolver throws, the tick is
aborted by the surrounding `catch` with the state unchanged (the throw
happens before any cache write), but the ended event was already sent. -/
def startNew (env : Resolver.Env) (st : WorkerState) (now : Nat) (w : Win)
    (endedEvs : List Event) : WorkerState × List Event :=
  match Resolver.resolveDisplayName env st.cache now (wExePath w) w.ownerName w.title with
  | .error _ => (st, endedEvs)
  | .ok (displayName, c1) =>
    (⟨some ⟨winSignature w, w.processId, now, now,
        mkPayload (wExePath w) w.title w.ownerName w.processId displayName now
          (classify (wBase w) (wExePath w))⟩, now, c1⟩,
      endedEvs ++ [Event.update (mkPayload (wExePath w) w.title w.ownerName w.processId
        displayName now (classify (wBase w) (wExePath w)))])

/-- One `pollActive()` tick: probe outcome `probe` at time `now`. The
whole body is inside a `try`; a probe throw reaches the `catch` before
`finishCurrentIfStale` is even defined, so an `err` tick only logs. -/
def pollActive (env : Resolver.Env) (st : WorkerState) (now : Nat) (probe : Probe) :
    WorkerState × List Event :=
  match probe with
  | .err => (st, [])
  | .noWin => finishCurrentIfStale st now
  | .win w =>
    if snapshotExcluded w then finishCurrentIfStale st now
    else if ¬ snapshotQualifies w then finishCurrentIfStale st now
    else
      match st.currentActive with
      | some cur =>
        if cur.signature = winSignature w then sameSigStep st cur now
        else startNew env st now w [Event.ended cur.payload now]
      | none => startNew env st now w []

/-- Run a sequence of ticks, concatenating the emitted events. -/
def runTicks (env : Resolver.Env) (st : WorkerState) :
    List (Nat × Probe) → WorkerState × List Event
  | [] => (st, [])
  | (now, pr) :: rest =>
    ((runTicks env (pollActive env st now pr).1 rest).1,
      (pollActive env st now pr).2 ++ (runTicks env (pollActive env st now pr).1 rest).2)

/-- The worker boot state: no session, heartbeat stamp 0, and whatever
cache `loadCache` produced. -/
def initState (c : Resolver.CacheState) : WorkerState := ⟨none, 0, c⟩

/-- Recogniser for ended events (used to state counterexamples). -/
def isEnded : Event → Bool
  | Event.ended _ _ => true
  | _ => false

/-- Recogniser for update events. -/
def isUpdate : Event → Bool
  | Event.update _ => true
  | _ => false

/-- Step function of the per-payload-class trace automaton used to verify
the session lifecycle: a class of payloads is picked out by `P`; an update
of the class sets the flag, an ended event of the class clears it. -/
def hotStep (P : Payload → Bool) (b : Bool) : Event → Bool
  | Event.update p => if P p then true else b
  | Event.ended p _ => if P p then false else b
  | Event.heartbeat _ => b

/-- Folded automaton flag over an event list. -/
def hotAfter (P : Payload → Bool) (b : Bool) (evs : List Event) : Bool :=
  evs.foldl (hotStep P) b

/-- Well-formedness of an event list with respect to the automaton: no
update event of class `P` occurs while the flag is already set. -/
def NoDupStart (P : Payload → Bool) (b : Bool) (evs : List Event) : Prop :=
  ∀ X p Y, evs = X ++ Event.update p :: Y → P p = true → hotAfter P b X = false

/-- The machine invariant tying the automaton flag to the worker state:
when the flag is set, the current session belongs to the class. -/
def HotInv (P : Payload → Bool) (st : WorkerState) (b : Bool) : Prop :=
  b = true → ∃ cur, st.currentActive = some cur ∧ P cur.payload = true

end Worker

namespace Resolver

/-- Fold a list of `(now, exePath, name)` mutations through `putCache`
(the mutations of one debounce window: no timer fires in between). -/
def applyPuts (c : CacheState) (ops : List (Nat × String × String)) : CacheState :=
  ops.foldl (fun acc op => putCache acc op.1 op.2.1 op.2.2) c

/-- Debounce potential: scheduled flushes plus the one more that a clear
timer still admits. `putCache` never increases it. -/
def flushPot (c : CacheState) : Nat :=
  c.flushes + (if c.timerPending then 0 else 1)

end Resolver

/-- Empty cache state (fresh start, no pending timer, no flush yet). -/
def cache0 : Resolver.CacheState := ⟨[], [], 0, false, 0⟩

/-- Windows resolver environment whose metadata probes find nothing and
whose library index is empty, with the `KNOWN_EXE_MAP` the worker passes
to `createNameResolver`. -/
def envW : Resolver.Env where
  platform := Resolver.Platform.win32
  knownMap := KNOWN_EXE_MAP
  precomputed := []
  fileDescription := fun _ => none
  macBundle := fun _ => none
  linuxDesktop := fun _ => none

/-- Same environment with one library-index entry, used to show that the
cache tier preempts the library tier on a later call. -/
def envLib : Resolver.Env := { envW with precomputed := [("d:/other/game.exe", "Library Name")] }

/-- A qualifying game window snapshot (steam library path). -/
def winA : Worker.Win := ⟨"c:/steamapps/common/mygame/game.exe", "game.exe", "Fun Game", some 7⟩

/-- The payload the worker builds for `winA` at time `now` with the name
the resolver produces for it ("Fun Game", from the window title tier). -/
def payA (now : Nat) : Worker.Payload :=
  Worker.mkPayload (Worker.wExePath winA) winA.title winA.ownerName winA.processId "Fun Game" now
    (classify (Worker.wBase winA) (Worker.wExePath winA))

/-- First snapshot of the signature-collision pair: title `a|b`, process
name `c`. -/
def winS1 : Worker.Win := ⟨"c:/steamapps/common/g/x.exe", "c", "a|b", some 5⟩

/-- Second snapshot of the collision pair: title `a`, process name `b|c` —
different fields, identical joined signature. -/
def winS2 : Worker.Win := ⟨"c:/steamapps/common/g/x.exe", "b|c", "a", some 5⟩

/-- A foreground Steam launcher window: excluded, although `classify`
calls it a game with confidence 0.9. -/
def winSteam : Worker.Win := ⟨"c:/program files (x86)/steam/steam.exe", "steam.exe", "Steam", some 3⟩

/-- `winA` with only the window title changed. -/
def winB : Worker.Win := ⟨"c:/steamapps/common/mygame/game.exe", "game.exe", "Other Title", some 7⟩

/-- A concrete live session used to exercise the tick lemmas at explicit
states. -/
def sessX : Worker.ActiveSession :=
  ⟨"x|T|x|1", some 1, 0, 0, ⟨"active", some 1, some "x", some "x", some "X", some "T",
    some "x", 0, Cat.game, 9 / 10⟩⟩

/-- Worker state holding `sessX`, heartbeat stamp 0, empty cache. -/
def stX : Worker.WorkerState := ⟨some sessX, 0, cache0⟩

/-- A live session carrying the signature of `winA`, last seen at 0. -/
def sessA : Worker.ActiveSession :=
  ⟨Worker.winSignature winA, winA.processId, 0, 0, payA 0⟩

/-- Worker state holding `sessA`, heartbeat stamp 0, empty cache. -/
def stX2 : Worker.WorkerState := ⟨some sessA, 0, cache0⟩

/-- Mutation list for the debounce witness: the same pair written three
times in one window. -/
def opsC : List (Nat × String × String) :=
  [(1, "c:/a/game.exe", "Foo"), (2, "c:/a/game.exe", "Foo"), (3, "c:/a/game.exe", "Foo")]

/-- Cache that already knows `game.exe` under the basename key only. -/
def cacheFoo : Resolver.CacheState := ⟨[("game.exe", "Foo")], [], 0, false, 0⟩

/-! Association-list lemmas for the cache object model. -/

theorem lookupKey_map_over (l : List (String × String)) (k v : String) :
    lookupKey k (l.map (fun kv => if kv.1 = k then (k, v) else kv)) =
      if (lookupKey k l).isSome then some v else none := by
  induction l with
  | nil => simp [lookupKey]
  | cons a t ih =>
    obtain ⟨a1, a2⟩ := a
    by_cases h : a1 = k
    · subst h
      rw [List.map_cons, if_pos rfl]
      simp [lookupKey, ih]
    · rw [List.map_cons]
      rw [if_neg (by simpa using h)]
      simp only [lookupKey, if_neg h, ih]

theorem lookupKey_append_right (l1 l2 : List (String × String)) (k : String)
    (h : lookupKey k l1 = none) : lookupKey k (l1 ++ l2) = lookupKey k l2 := by
  induction l1 with
  | nil => simp
  | cons a t ih =>
    obtain ⟨a1, a2⟩ := a
    by_cases hk : a1 = k
    · simp [lookupKey, hk] at h
    · simp [lookupKey, hk] at h ⊢
      exact ih h

theorem lookupKey_setKey (l : List (String × String)) (k v : String) :
    lookupKey k (Resolver.setKey l k v) = some v := by
  unfold Resolver.setKey
  by_cases hs : (lookupKey k l).isSome
  · simp [hs, lookupKey_map_over]
  · rw [if_neg (by simp [hs])]
    rw [lookupKey_append_right]
    · simp [lookupKey]
    · exact Option.not_isSome_iff_eq_none.mp hs

/-! Lemmas about `putCache` and the debounced flush. -/

theorem saveCacheSoon_byExe (c : Resolver.CacheState) :
    (Resolver.saveCacheSoon c).byExe = c.byExe := by
  unfold Resolver.saveCacheSoon; split <;> rfl

theorem saveCacheSoon_byPath (c : Resolver.CacheState) :
    (Resolver.saveCacheSoon c).byPath = c.byPath := by
  unfold Resolver.saveCacheSoon; split <;> rfl

theorem lookupKey_putCache_byExe (c : Resolver.CacheState) (now : Nat) (p n : String)
    (hn : n ≠ "") (he : Resolver.exeBase p ≠ "") :
    lookupKey (Resolver.exeBase p) (Resolver.putCache c now p n).byExe = some n := by
  unfold Resolver.putCache
  rw [if_neg hn]
  by_cases hlook : lookupKey (Resolver.exeBase p) c.byExe = some n
  · split
    · rw [saveCacheSoon_byExe]
      rw [if_neg (by simp [hlook])]
      exact hlook
    · exact hlook
  · rw [if_pos (Or.inl ⟨he, hlook⟩), saveCacheSoon_byExe]
    rw [if_pos ⟨he, hlook⟩]
    exact lookupKey_setKey _ _ _

theorem lookupKey_putCache_byPath (c : Resolver.CacheState) (now : Nat) (p n : String)
    (hn : n ≠ "") (hp : p ≠ "") :
    lookupKey (lower p) (Resolver.putCache c now p n).byPath = some n := by
  unfold Resolver.putCache
  rw [if_neg hn]
  by_cases hlook : lookupKey (lower p) c.byPath = some n
  · split
    · rw [saveCacheSoon_byPath]
      dsimp only
      rw [if_neg (by simp [hlook])]
      exact hlook
    · exact hlook
  · rw [if_pos (Or.inr ⟨hp, hlook⟩), saveCacheSoon_byPath]
    dsimp only
    rw [if_pos ⟨hp, hlook⟩]
    exact lookupKey_setKey _ _ _

theorem putCache_state_cases (c : Resolver.CacheState) (now : Nat) (p n : String) :
    (Resolver.putCache c now p n).timerPending = true ∨ Resolver.putCache c now p n = c := by
  unfold Resolver.putCache Resolver.saveCacheSoon
  repeat' split
  all_goals simp_all

theorem flushPot_putCache (c : Resolver.CacheState) (now : Nat) (p n : String) :
    Resolver.flushPot (Resolver.putCache c now p n) = Resolver.flushPot c := by
  unfold Resolver.putCache Resolver.saveCacheSoon Resolver.flushPot
  repeat' split
  all_goals simp_all

theorem flushPot_applyPuts (ops : List (Nat × String × String)) :
    ∀ c, Resolver.flushPot (Resolver.applyPuts c ops) = Resolver.flushPot c := by
  induction ops with
  | nil => intro c; rfl
  | cons op rest ih =>
    intro c
    show Resolver.flushPot (Resolver.applyPuts (Resolver.putCache c op.1 op.2.1 op.2.2) rest) = _
    rw [ih, flushPot_putCache]

theorem putCache_same_again (c : Resolver.CacheState) (now2 : Nat) (p n : String)
    (hbe : Resolver.exeBase p ≠ "" → lookupKey (Resolver.exeBase p) c.byExe = some n)
    (hbp : p ≠ "" → lookupKey (lower p) c.byPath = some n) :
    Resolver.putCache c now2 p n = c := by
  by_cases hn : n = ""
  · simp [Resolver.putCache, hn]
  · unfold Resolver.putCache
    rw [if_neg hn, if_neg]
    rintro (⟨he, hne⟩ | ⟨hp2, hne⟩)
    · exact hne (hbe he)
    · exact hne (hbp hp2)

/-- Claim C8: the second identical `putCache` write changes nothing (both
maps, `updatedAt`, the debounce timer and the scheduled-flush count are
untouched), and any number of mutations inside one debounce window (no
timer firing in between) schedules at most one flush. -/
theorem c8_cache_put_idempotent :
    (∀ c now1 now2 p n,
      Resolver.putCache (Resolver.putCache c now1 p n) now2 p n = Resolver.putCache c now1 p n) ∧
    (∀ c ops, c.timerPending = false →
      (Resolver.applyPuts c ops).flushes ≤ c.flushes + 1) := by
  constructor
  · intro c now1 now2 p n
    by_cases hn : n = ""
    · simp [Resolver.putCache, hn]
    · exact putCache_same_again _ now2 p n
        (fun he => lookupKey_putCache_byExe c now1 p n hn he)
        (fun hp => lookupKey_putCache_byPath c now1 p n hn hp)
  · intro c ops hpend
    have h1 : (Resolver.applyPuts c ops).flushes ≤ Resolver.flushPot (Resolver.applyPuts c ops) := by
      unfold Resolver.flushPot; omega
    have h2 := flushPot_applyPuts ops c
    unfold Resolver.flushPot at h2
    rw [hpend] at h2
    simp at h2
    omega

/-- Witness for C8: three identical writes in one window schedule at most
one flush from a clear timer. -/
theorem c8_cache_put_idempotent_witness :
    (Resolver.applyPuts cache0 opsC).flushes ≤ cache0.flushes + 1 :=
  c8_cache_put_idempotent.2 cache0 opsC rfl

/-! Non-emptiness facts about the resolver tiers. -/

theorem mkString_ne {l : List Char} (h : l ≠ []) : (⟨l⟩ : String) ≠ "" := by
  intro heq
  exact h (congrArg String.data heq)

theorem str_ne_iff {s : String} : s ≠ "" ↔ s.data ≠ [] := by
  constructor
  · intro h heq
    exact h (String.ext heq)
  · intro h heq
    exact h (congrArg String.data heq)

theorem truthyStr_some {o : Option String} {s : String} (h : Resolver.truthyStr o = some s) :
    s ≠ "" ∧ o = some s := by
  match o with
  | none => simp [Resolver.truthyStr] at h
  | some t =>
    simp only [Resolver.truthyStr] at h
    by_cases ht : t = ""
    · rw [if_pos ht] at h
      exact absurd h (by simp)
    · rw [if_neg ht] at h
      obtain rfl : t = s := by simpa using h
      exact ⟨ht, rfl⟩

theorem metadataName_some_ne {env : Resolver.Env} {p nm : String}
    (h : Resolver.metadataName env p = some nm) : nm ≠ "" := by
  unfold Resolver.metadataName at h
  split at h
  · split at h
    · split at h
      · split at h
        · simp_all
        · exact absurd h (by simp)
      · exact absurd h (by simp)
    · exact absurd h (by simp)
  · split at h
    · exact (truthyStr_some h).1
    · exact absurd h (by simp)
  · split at h
    · exact (truthyStr_some h).1
    · exact absurd h (by simp)

theorem metadataName_empty (env : Resolver.Env) : Resolver.metadataName env "" = none := by
  unfold Resolver.metadataName
  split <;> simp

theorem takeJs_ne {s : String} (h : 3 ≤ s.length) : takeJs 80 s ≠ "" := by
  unfold takeJs
  apply mkString_ne
  intro heq
  have hl := congrArg List.length heq
  simp only [List.length_take, List.length_nil] at hl
  have : s.length = s.toList.length := rfl
  omega

theorem steamCommonCapture_ne :
    ∀ l cap, steamCommonCapture l = some cap → cap ≠ [] := by
  intro l
  induction l with
  | nil => intro cap h; exact absurd h (by simp [steamCommonCapture])
  | cons c rest ih =>
    intro cap h
    unfold steamCommonCapture at h
    split at h
    · split at h
      · exact ih cap h
      · rename_i hne
        obtain rfl := Option.some.inj h
        exact hne
    · exact ih cap h

set_option maxHeartbeats 1000000 in
theorem pctTokens_cons_ne {c : Char} {r : List Char} {ts : List Tok}
    (h : pctTokens (c :: r) = some ts) : ts ≠ [] := by
  rw [pctTokens.eq_def] at h
  repeat' split at h
  all_goals first
    | (obtain ⟨t, ht, rfl⟩ := Option.map_eq_some'.mp h; simp)
    | simp_all

set_option maxHeartbeats 1000000 in
theorem utf8Assemble_cons_ne {t0 : Tok} {ts : List Tok} {out : List Char}
    (h : utf8Assemble (t0 :: ts) = some out) : out ≠ [] := by
  cases t0 with
  | ch c =>
    simp only [utf8Assemble] at h
    obtain ⟨t, ht, rfl⟩ := Option.map_eq_some'.mp h
    simp
  | esc b h1 h2 =>
    rw [utf8Assemble.eq_def] at h
    repeat' split at h
    all_goals first
      | (obtain ⟨t, ht, rfl⟩ := Option.map_eq_some'.mp h; simp)
      | simp_all

theorem decodeCore_cons_ne {c : Char} {r out : List Char}
    (h : decodeCore (c :: r) = some out) : out ≠ [] := by
  unfold decodeCore at h
  split at h
  · rename_i ts hts
    match ts, pctTokens_cons_ne hts with
    | t0 :: ts2, _ => exact utf8Assemble_cons_ne h
  · exact absurd h (by simp)

theorem deSlugAux_ne {l : List Char} (h : l ≠ []) : deSlugAux false l ≠ [] := by
  match l with
  | [] => exact absurd rfl h
  | c :: r =>
    unfold deSlugAux
    split <;> simp

theorem lookupKey_mem {l : List (String × String)} {k v : String}
    (h : lookupKey k l = some v) : (k, v) ∈ l := by
  induction l with
  | nil => simp [lookupKey] at h
  | cons a t ih =>
    obtain ⟨a1, a2⟩ := a
    unfold lookupKey at h
    split at h
    · simp_all
    · simp [ih h]

theorem capitalizeJs_ne {s : String} (h : s ≠ "") : capitalizeJs s ≠ "" := by
  obtain ⟨d⟩ := s
  match d, str_ne_iff.mp h with
  | cx :: cr, _ => exact mkString_ne (by simp)

/-- Claim C1 (the code contradicts it): a path whose `steamapps/common/…`
segment is not a valid URI encoding makes tier 6 call `decodeURI` on it,
which throws a `URIError` that no tier boundary catches, so
`resolveDisplayName` rejects with the error instead of falling through to
the bare-fallback tier. Here the folder `50%` ends in a bare `%`. -/
theorem c1_resolver_throws_on_malformed_uri :
    Resolver.resolveDisplayName envW cache0 0 "c:/steamapps/common/50%/game.exe" "" "" =
      .error () := by
  rfl

/-- Every name a successful resolution returns is non-empty, provided the
known-names table holds no empty values (shared workhorse for the
non-emptiness and write-back facts). -/
theorem resolve_ok_ne :
    ∀ env c now exePath processName windowTitle n c1,
      (∀ kv ∈ env.knownMap, kv.2 ≠ "") →
      Resolver.resolveDisplayName env c now exePath processName windowTitle =
        Except.ok (n, c1) →
      n ≠ "" := by
  intro env c now exePath processName windowTitle n c1 hKnown h
  unfold Resolver.resolveDisplayName at h
  rcases h1 : (if Resolver.exKey exePath processName ≠ "" then
      lookupKey (Resolver.exKey exePath processName) env.knownMap else none) with _ | name1
  · simp only [h1] at h
    rcases h2 : (if Resolver.exKey exePath processName ≠ "" then
        Resolver.truthyStr (lookupKey (Resolver.exKey exePath processName) c.byExe) else none)
        with _ | name2
    · simp only [h2] at h
      rcases h3 : (if exePath ≠ "" then
          Resolver.truthyStr (lookupKey (lower exePath) c.byPath) else none) with _ | name3
      · simp only [h3] at h
        rcases h4 : (if exePath ≠ "" ∧ env.precomputed ≠ [] then
            Resolver.truthyStr (lookupKey (lower exePath) env.precomputed) else none)
            with _ | name4
        · simp only [h4] at h
          rcases h5 : Resolver.metadataName env exePath with _ | name5
          · simp only [h5] at h
            by_cases h6 : windowTitle ≠ "" ∧ 3 ≤ (trimJs windowTitle).length
            · rw [if_pos h6] at h
              obtain ⟨rfl, rfl⟩ := Prod.mk.inj (Except.ok.inj h)
              exact takeJs_ne h6.2
            · rw [if_neg h6] at h
              rcases h7 : (if exePath ≠ "" then
                  steamCommonFolder (slashify (lower exePath)) else none) with _ | folder
              · simp only [h7] at h
                by_cases h8 : stripExeSuffix (Resolver.exKey exePath processName) ≠ ""
                · rw [if_pos h8] at h
                  obtain ⟨rfl, rfl⟩ := Prod.mk.inj (Except.ok.inj h)
                  exact capitalizeJs_ne h8
                · rw [if_neg h8] at h
                  obtain ⟨rfl, rfl⟩ := Prod.mk.inj (Except.ok.inj h)
                  simp
              · simp only [h7] at h
                rcases h9 : decodeURIJs folder with _ | dec
                · simp only [h9] at h
                  exact absurd h (by simp)
                · simp only [h9] at h
                  obtain ⟨rfl, rfl⟩ := Prod.mk.inj (Except.ok.inj h)
                  split at h7
                  · unfold steamCommonFolder at h7
                    obtain ⟨cap, hcap, rfl⟩ := Option.map_eq_some'.mp h7
                    have hcapne := steamCommonCapture_ne _ _ hcap
                    unfold decodeURIJs at h9
                    obtain ⟨out, hout, rfl⟩ := Option.map_eq_some'.mp h9
                    apply mkString_ne
                    apply deSlugAux_ne
                    show out ≠ []
                    match cap, hcapne, hout with
                    | cx :: cr, _, hout => exact decodeCore_cons_ne hout
                  · exact absurd h7 (by simp)
          · simp only [h5] at h
            obtain ⟨rfl, rfl⟩ := Prod.mk.inj (Except.ok.inj h)
            exact metadataName_some_ne h5
        · simp only [h4] at h
          obtain ⟨rfl, rfl⟩ := Prod.mk.inj (Except.ok.inj h)
          split at h4
          · exact (truthyStr_some h4).1
          · exact absurd h4 (by simp)
      · simp only [h3] at h
        obtain ⟨rfl, rfl⟩ := Prod.mk.inj (Except.ok.inj h)
        split at h3
        · exact (truthyStr_some h3).1
        · exact absurd h3 (by simp)
    · simp only [h2] at h
      obtain ⟨rfl, rfl⟩ := Prod.mk.inj (Except.ok.inj h)
      split at h2
      · exact (truthyStr_some h2).1
      · exact absurd h2 (by simp)
  · simp only [h1] at h
    obtain ⟨rfl, rfl⟩ := Prod.mk.inj (Except.ok.inj h)
    split at h1
    · exact hKnown _ (lookupKey_mem h1)
    · exact absurd h1 (by simp)
/-- The all-empty call reaches the bare-fallback tier and returns the
sentinel with the cache untouched. -/
theorem resolve_empty_inputs :
    ∀ env c now, Resolver.resolveDisplayName env c now "" "" "" =
      Except.ok ("Unknown App", c) := by
  intro env c now
  have h5 : Resolver.metadataName env "" = none := metadataName_empty env
  simp [Resolver.resolveDisplayName, Resolver.exKey, Resolver.exeBase, lower, h5,
    Resolver.putCache, stripExeSuffix, capitalizeJs,
    show lower "" = "" from rfl,
    show endsWithJs "" ".exe" = false from rfl]

/-- Claim C6: whenever `resolveDisplayName` returns a name it is non-empty
(provided the `knownMap` the worker passes holds no empty names, true of
`KNOWN_EXE_MAP`), and on all-empty inputs it returns exactly the
`"Unknown App"` sentinel of the bare-fallback tier with the cache
untouched. -/
theorem c6_resolver_nonempty :
    (∀ env c now exePath processName windowTitle n c1,
      (∀ kv ∈ env.knownMap, kv.2 ≠ "") →
      Resolver.resolveDisplayName env c now exePath processName windowTitle =
        Except.ok (n, c1) →
      n ≠ "") ∧
    (∀ env c now, Resolver.resolveDisplayName env c now "" "" "" =
      Except.ok ("Unknown App", c)) :=
  ⟨resolve_ok_ne, resolve_empty_inputs⟩

/-- Witness for C6: the all-empty call returns the non-empty sentinel. -/
theorem c6_resolver_nonempty_witness : ("Unknown App" : String) ≠ "" :=
  c6_resolver_nonempty.1 envW cache0 0 "" "" "" "Unknown App" cache0
    (by decide) (c6_resolver_nonempty.2 envW cache0 0)

/-! Write-back behaviour of the resolver (claims C9 and C10). -/

theorem exKey_of_base {exePath : String} (processName : String)
    (h : Resolver.exeBase exePath ≠ "") :
    Resolver.exKey exePath processName = Resolver.exeBase exePath := by
  unfold Resolver.exKey
  rw [if_pos h]

/-- Claim C9 counterexample: when the cache tier (tier 2) produces the
result, nothing is written back — the full-path key stays absent and no
flush is scheduled, although the claim promises a write-back for every
tier other than tier 1. -/
theorem c9_cache_tier_no_writeback_cx :
    Resolver.resolveDisplayName envW cacheFoo 5 "c:/g/game.exe" "" "Great Game" =
      Except.ok ("Foo", cacheFoo) ∧
    lookupKey (lower "c:/g/game.exe") cacheFoo.byPath = none ∧
    cacheFoo.flushes = 0 ∧ cacheFoo.timerPending = false :=
  ⟨rfl, rfl, rfl, rfl⟩

/-- Claim C9 as amended: when the result comes from a tier other than 1
(known table) and 2 (cache lookup) — that is, when the known table misses
and both cache keys miss — the winning name is written back into the
cache under both the basename key and the lowercased full-path key. -/
theorem c9_writeback_amended :
    ∀ env c now exePath processName windowTitle n c1,
      exePath ≠ "" →
      Resolver.exeBase exePath ≠ "" →
      (∀ kv ∈ env.knownMap, kv.2 ≠ "") →
      lookupKey (Resolver.exKey exePath processName) env.knownMap = none →
      Resolver.truthyStr (lookupKey (Resolver.exKey exePath processName) c.byExe) = none →
      Resolver.truthyStr (lookupKey (lower exePath) c.byPath) = none →
      Resolver.resolveDisplayName env c now exePath processName windowTitle =
        Except.ok (n, c1) →
      lookupKey (Resolver.exeBase exePath) c1.byExe = some n ∧
      lookupKey (lower exePath) c1.byPath = some n := by
  intro env c now exePath processName windowTitle n c1 hp hbe0 hKnown hknown hbe hbp h
  have hn : n ≠ "" := resolve_ok_ne env c now exePath processName windowTitle n c1 hKnown h
  unfold Resolver.resolveDisplayName at h
  rcases h1 : (if Resolver.exKey exePath processName ≠ "" then
      lookupKey (Resolver.exKey exePath processName) env.knownMap else none) with _ | name1
  swap
  · rw [if_pos (by rw [exKey_of_base processName hbe0]; exact hbe0), hknown] at h1
    exact absurd h1 (by simp)
  simp only [h1] at h
  rcases h2 : (if Resolver.exKey exePath processName ≠ "" then
      Resolver.truthyStr (lookupKey (Resolver.exKey exePath processName) c.byExe) else none)
      with _ | name2
  swap
  · rw [if_pos (by rw [exKey_of_base processName hbe0]; exact hbe0), hbe] at h2
    exact absurd h2 (by simp)
  simp only [h2] at h
  rcases h3 : (if exePath ≠ "" then
      Resolver.truthyStr (lookupKey (lower exePath) c.byPath) else none) with _ | name3
  swap
  · rw [if_pos hp, hbp] at h3
    exact absurd h3 (by simp)
  simp only [h3] at h
  rcases h4 : (if exePath ≠ "" ∧ env.precomputed ≠ [] then
      Resolver.truthyStr (lookupKey (lower exePath) env.precomputed) else none) with _ | name4
  · simp only [h4] at h
    rcases h5 : Resolver.metadataName env exePath with _ | name5
    · simp only [h5] at h
      by_cases h6 : windowTitle ≠ "" ∧ 3 ≤ (trimJs windowTitle).length
      · rw [if_pos h6, if_pos hp] at h
        obtain ⟨rfl, rfl⟩ := Prod.mk.inj (Except.ok.inj h)
        exact ⟨lookupKey_putCache_byExe c now exePath _ hn hbe0,
          lookupKey_putCache_byPath c now exePath _ hn hp⟩
      · rw [if_neg h6] at h
        rcases h7 : (if exePath ≠ "" then
            steamCommonFolder (slashify (lower exePath)) else none) with _ | folder
        · simp only [h7] at h
          by_cases h8 : stripExeSuffix (Resolver.exKey exePath processName) ≠ ""
          · rw [if_pos h8, if_pos hp] at h
            obtain ⟨rfl, rfl⟩ := Prod.mk.inj (Except.ok.inj h)
            exact ⟨lookupKey_putCache_byExe c now exePath _ hn hbe0,
              lookupKey_putCache_byPath c now exePath _ hn hp⟩
          · rw [if_neg h8, if_pos hp] at h
            obtain ⟨rfl, rfl⟩ := Prod.mk.inj (Except.ok.inj h)
            exact ⟨lookupKey_putCache_byExe c now exePath _ hn hbe0,
              lookupKey_putCache_byPath c now exePath _ hn hp⟩
        · simp only [h7] at h
          rcases h9 : decodeURIJs folder with _ | dec
          · simp only [h9] at h
            exact absurd h (by simp)
          · simp only [h9] at h
            obtain ⟨rfl, rfl⟩ := Prod.mk.inj (Except.ok.inj h)
            exact ⟨lookupKey_putCache_byExe c now exePath _ hn hbe0,
              lookupKey_putCache_byPath c now exePath _ hn hp⟩
    · simp only [h5] at h
      obtain ⟨rfl, rfl⟩ := Prod.mk.inj (Except.ok.inj h)
      exact ⟨lookupKey_putCache_byExe c now exePath _ hn hbe0,
        lookupKey_putCache_byPath c now exePath _ hn hp⟩
  · simp only [h4] at h
    obtain ⟨rfl, rfl⟩ := Prod.mk.inj (Except.ok.inj h)
    exact ⟨lookupKey_putCache_byExe c now exePath _ hn hbe0,
      lookupKey_putCache_byPath c now exePath _ hn hp⟩

/-- Witness for the amended C9: a window-title resolution writes the pair
under both keys. -/
theorem c9_writeback_amended_witness :
    lookupKey (Resolver.exeBase "c:/g/game.exe")
        (Resolver.putCache cache0 5 "c:/g/game.exe" "Great Game").byExe = some "Great Game" ∧
    lookupKey (lower "c:/g/game.exe")
        (Resolver.putCache cache0 5 "c:/g/game.exe" "Great Game").byPath = some "Great Game" :=
  c9_writeback_amended envW cache0 5 "c:/g/game.exe" "" "Great Game" "Great Game"
    (Resolver.putCache cache0 5 "c:/g/game.exe" "Great Game")
    (by decide) (by decide) (by decide) rfl rfl rfl rfl

/-- When the known table misses and the basename key is cached with a
truthy name, the cache tier wins, whatever the title, the library index
and the metadata probes would have said, and the cache is not touched. -/
theorem resolve_cache_byExe_hit :
    ∀ env c now exePath processName windowTitle n,
      Resolver.exKey exePath processName ≠ "" →
      lookupKey (Resolver.exKey exePath processName) env.knownMap = none →
      lookupKey (Resolver.exKey exePath processName) c.byExe = some n →
      n ≠ "" →
      Resolver.resolveDisplayName env c now exePath processName windowTitle =
        Except.ok (n, c) := by
  intro env c now exePath processName windowTitle n hk hknown hhit hn
  unfold Resolver.resolveDisplayName
  rw [if_pos hk, hknown]
  simp only [if_pos hk, hhit, Resolver.truthyStr, if_neg hn]

/-- Claim C10: the cache tier precedes the library-index, metadata and
title tiers and entries never expire, so (a) any call whose basename is
cached (and not in the known table) returns the cached name with the
cache unchanged, and (b) once a call resolves through the window-title
tier, every later call for the same basename — with any other window
title, library index entry or metadata answer for its own path — returns
that first cached name, again leaving the cache unchanged. -/
theorem c10_cache_sticky :
    (∀ env c now exePath processName windowTitle n,
      Resolver.exKey exePath processName ≠ "" →
      lookupKey (Resolver.exKey exePath processName) env.knownMap = none →
      lookupKey (Resolver.exKey exePath processName) c.byExe = some n →
      n ≠ "" →
      Resolver.resolveDisplayName env c now exePath processName windowTitle =
        Except.ok (n, c)) ∧
    (∀ env c now1 e1 p1 t1,
      e1 ≠ "" →
      Resolver.exeBase e1 ≠ "" →
      lookupKey (Resolver.exeBase e1) env.knownMap = none →
      Resolver.truthyStr (lookupKey (Resolver.exeBase e1) c.byExe) = none →
      Resolver.truthyStr (lookupKey (lower e1) c.byPath) = none →
      Resolver.truthyStr (lookupKey (lower e1) env.precomputed) = none →
      Resolver.metadataName env e1 = none →
      t1 ≠ "" →
      3 ≤ (trimJs t1).length →
      Resolver.resolveDisplayName env c now1 e1 p1 t1 =
        Except.ok (takeJs 80 (trimJs t1), Resolver.putCache c now1 e1 (takeJs 80 (trimJs t1))) ∧
      (∀ now2 e2 p2 t2,
        Resolver.exKey e2 p2 = Resolver.exeBase e1 →
        Resolver.resolveDisplayName env
            (Resolver.putCache c now1 e1 (takeJs 80 (trimJs t1))) now2 e2 p2 t2 =
          Except.ok (takeJs 80 (trimJs t1),
            Resolver.putCache c now1 e1 (takeJs 80 (trimJs t1))))) := by
  constructor
  · exact resolve_cache_byExe_hit
  · intro env c now1 e1 p1 t1 hp hbe0 hknown hbe hbp hpre hmeta ht htl
    have hfirst : Resolver.resolveDisplayName env c now1 e1 p1 t1 =
        Except.ok (takeJs 80 (trimJs t1), Resolver.putCache c now1 e1 (takeJs 80 (trimJs t1))) := by
      unfold Resolver.resolveDisplayName
      rw [exKey_of_base p1 hbe0]
      rw [if_pos hbe0, hknown]
      simp only [if_pos hbe0, hbe]
      rw [if_pos hp, hbp]
      have h4 : (if e1 ≠ "" ∧ env.precomputed ≠ [] then
          Resolver.truthyStr (lookupKey (lower e1) env.precomputed) else none) = none := by
        rcases hpl : env.precomputed with _ | ⟨q, qs⟩
        · rw [if_neg]
          rintro ⟨-, hne⟩
          exact hne rfl
        · rw [if_pos ⟨hp, by simp⟩]
          rw [← hpl, hpre]
      rw [h4, hmeta]
      simp only [hmeta]
      rw [if_pos ⟨ht, htl⟩, if_pos hp]
    refine ⟨hfirst, ?_⟩
    intro now2 e2 p2 t2 hsig
    have htne : takeJs 80 (trimJs t1) ≠ "" := takeJs_ne htl
    apply resolve_cache_byExe_hit
    · rw [hsig]; exact hbe0
    · rw [hsig]; exact hknown
    · rw [hsig]
      exact lookupKey_putCache_byExe c now1 e1 _ htne hbe0
    · exact htne

/-- Witness for C10: the first call takes the window-title name; a later
call for the same basename but a different path, with a library-index
entry that would apply to that path and a different title, still returns
the first cached name. -/
theorem c10_cache_sticky_witness :
    Resolver.resolveDisplayName envLib cache0 5 "c:/g/game.exe" "" "Great Game" =
      Except.ok ("Great Game", Resolver.putCache cache0 5 "c:/g/game.exe" "Great Game") ∧
    Resolver.resolveDisplayName envLib
        (Resolver.putCache cache0 5 "c:/g/game.exe" "Great Game") 7
        "d:/other/game.exe" "" "Other Title" =
      Except.ok ("Great Game", Resolver.putCache cache0 5 "c:/g/game.exe" "Great Game") := by
  have h := c10_cache_sticky.2 envLib cache0 5 "c:/g/game.exe" "" "Great Game"
    (by decide) (by decide) rfl rfl rfl rfl rfl (by decide) (by decide)
  exact ⟨h.1, h.2 7 "d:/other/game.exe" "" "Other Title" rfl⟩

/-! Session state machine: tick shape lemmas and the trace automaton. -/

section SessionMachine

open Worker

theorem finish_stale {st : WorkerState} {cur : ActiveSession} {now : Nat}
    (hcur : st.currentActive = some cur) (hs : ACTIVE_STALE_MS < now - cur.lastSeen) :
    finishCurrentIfStale st now =
      ({ st with currentActive := none }, [Event.ended cur.payload now]) := by
  unfold finishCurrentIfStale
  rw [hcur]
  simp only [if_pos hs]

theorem finish_not_stale {st : WorkerState} {cur : ActiveSession} {now : Nat}
    (hcur : st.currentActive = some cur) (hs : ¬ ACTIVE_STALE_MS < now - cur.lastSeen) :
    finishCurrentIfStale st now = (st, []) := by
  unfold finishCurrentIfStale
  rw [hcur]
  simp only [if_neg hs]

theorem finish_no_update (st : WorkerState) (now : Nat) :
    ∀ p, Event.update p ∉ (finishCurrentIfStale st now).2 := by
  intro p
  unfold finishCurrentIfStale
  split
  · split <;> simp
  · simp

theorem pollActive_err (env : Resolver.Env) (st : WorkerState) (now : Nat) :
    pollActive env st now Probe.err = (st, []) := rfl

theorem pollActive_noWin (env : Resolver.Env) (st : WorkerState) (now : Nat) :
    pollActive env st now Probe.noWin = finishCurrentIfStale st now := rfl

theorem pollActive_excluded {env : Resolver.Env} {st : WorkerState} {now : Nat} {w : Win}
    (hex : snapshotExcluded w = true) :
    pollActive env st now (Probe.win w) = finishCurrentIfStale st now := by
  unfold pollActive
  dsimp only
  rw [if_pos hex]

theorem pollActive_nonqual {env : Resolver.Env} {st : WorkerState} {now : Nat} {w : Win}
    (hex : snapshotExcluded w = false) (hq : snapshotQualifies w = false) :
    pollActive env st now (Probe.win w) = finishCurrentIfStale st now := by
  unfold pollActive
  dsimp only
  rw [if_neg (by simp [hex]), if_pos (by simp [hq])]

theorem pollActive_same {env : Resolver.Env} {st : WorkerState} {now : Nat} {w : Win}
    {cur : ActiveSession} (hex : snapshotExcluded w = false) (hq : snapshotQualifies w = true)
    (hcur : st.currentActive = some cur) (hsig : cur.signature = winSignature w) :
    pollActive env st now (Probe.win w) = sameSigStep st cur now := by
  unfold pollActive
  dsimp only
  rw [if_neg (by simp [hex]), if_neg (by simp [hq]), hcur]
  simp only [if_pos hsig]

theorem pollActive_new_none {env : Resolver.Env} {st : WorkerState} {now : Nat} {w : Win}
    (hex : snapshotExcluded w = false) (hq : snapshotQualifies w = true)
    (hcur : st.currentActive = none) :
    pollActive env st now (Probe.win w) = startNew env st now w [] := by
  unfold pollActive
  dsimp only
  rw [if_neg (by simp [hex]), if_neg (by simp [hq]), hcur]

theorem pollActive_replace {env : Resolver.Env} {st : WorkerState} {now : Nat} {w : Win}
    {cur : ActiveSession} (hex : snapshotExcluded w = false) (hq : snapshotQualifies w = true)
    (hcur : st.currentActive = some cur) (hsig : ¬ cur.signature = winSignature w) :
    pollActive env st now (Probe.win w) =
      startNew env st now w [Event.ended cur.payload now] := by
  unfold pollActive
  dsimp only
  rw [if_neg (by simp [hex]), if_neg (by simp [hq]), hcur]
  simp only [if_neg hsig]

theorem hotAfter_append (P : Payload → Bool) (b : Bool) (l1 l2 : List Event) :
    hotAfter P b (l1 ++ l2) = hotAfter P (hotAfter P b l1) l2 :=
  List.foldl_append _ _ _ _

theorem hot_true_false {P : Payload → Bool} :
    ∀ {Y : List Event}, hotAfter P true Y = false →
      ∃ r m, Event.ended r m ∈ Y ∧ P r = true := by
  intro Y
  induction Y with
  | nil => intro h; simp [hotAfter] at h
  | cons e Y ih =>
    intro h
    have hstep : hotAfter P true (e :: Y) = hotAfter P (hotStep P true e) Y := rfl
    rw [hstep] at h
    cases e with
    | update p =>
      have hu : hotStep P true (Event.update p) = true := by
        simp only [hotStep]
        split <;> rfl
      rw [hu] at h
      obtain ⟨r, m, hm, hp⟩ := ih h
      exact ⟨r, m, List.mem_cons_of_mem _ hm, hp⟩
    | heartbeat p =>
      obtain ⟨r, m, hm, hp⟩ := ih h
      exact ⟨r, m, List.mem_cons_of_mem _ hm, hp⟩
    | ended p m =>
      by_cases hp : P p = true
      · exact ⟨p, m, List.mem_cons_self _ _, hp⟩
      · have he : hotStep P true (Event.ended p m) = true := by
          unfold hotStep
          dsimp only
          rw [if_neg hp]
        rw [he] at h
        obtain ⟨r, m2, hm, hp2⟩ := ih h
        exact ⟨r, m2, List.mem_cons_of_mem _ hm, hp2⟩

theorem append_split {α : Type} {l1 l2 X Y : List α} {e : α} :
    l1 ++ l2 = X ++ e :: Y →
    (∃ a, X = l1 ++ a ∧ l2 = a ++ e :: Y) ∨ (∃ c, l1 = X ++ e :: c ∧ Y = c ++ l2) := by
  induction X generalizing l1 with
  | nil =>
    intro h
    cases l1 with
    | nil => exact Or.inl ⟨[], by simp, by simpa using h⟩
    | cons a l1t =>
      simp only [List.nil_append, List.cons_append] at h
      obtain ⟨rfl, hY⟩ := List.cons.inj h
      exact Or.inr ⟨l1t, by simp, hY.symm⟩
  | cons x Xt ih =>
    intro h
    cases l1 with
    | nil => exact Or.inl ⟨x :: Xt, by simp, by simpa using h⟩
    | cons a l1t =>
      simp only [List.cons_append] at h
      obtain ⟨rfl, h2⟩ := List.cons.inj h
      rcases ih h2 with ⟨a2, hA, hB⟩ | ⟨c, hC, hD⟩
      · exact Or.inl ⟨a2, by simp [hA], hB⟩
      · exact Or.inr ⟨c, by simp [hC], hD⟩

theorem noDup_append {P : Payload → Bool} {b : Bool} {l1 l2 : List Event}
    (h1 : NoDupStart P b l1) (h2 : NoDupStart P (hotAfter P b l1) l2) :
    NoDupStart P b (l1 ++ l2) := by
  intro X p Y hsplit hP
  rcases append_split hsplit with ⟨a, ha1, ha2⟩ | ⟨c, hc1, hc2⟩
  · rw [ha1, hotAfter_append]
    exact h2 a p Y ha2 hP
  · exact h1 X p c hc1 hP

theorem noDup_nil {P : Payload → Bool} {b : Bool} : NoDupStart P b [] := by
  intro X p Y h hP
  cases X <;> simp at h

theorem noDup_single_ended {P : Payload → Bool} {b : Bool} {r : Payload} {m : Nat} :
    NoDupStart P b [Event.ended r m] := by
  intro X p Y h hP
  rcases X with _ | ⟨x, _ | ⟨y, X⟩⟩ <;> simp_all

theorem noDup_single_heartbeat {P : Payload → Bool} {b : Bool} {r : Payload} :
    NoDupStart P b [Event.heartbeat r] := by
  intro X p Y h hP
  rcases X with _ | ⟨x, _ | ⟨y, X⟩⟩ <;> simp_all

theorem finish_hot {P : Payload → Bool} {st : WorkerState} {now : Nat} {b : Bool}
    (hI : HotInv P st b) :
    HotInv P (finishCurrentIfStale st now).1
        (hotAfter P b (finishCurrentIfStale st now).2) ∧
    NoDupStart P b (finishCurrentIfStale st now).2 := by
  rcases hcur : st.currentActive with _ | cur
  · rw [show finishCurrentIfStale st now = (st, []) from by
      unfold finishCurrentIfStale; rw [hcur]]
    exact ⟨hI, noDup_nil⟩
  · by_cases hs : ACTIVE_STALE_MS < now - cur.lastSeen
    · rw [finish_stale hcur hs]
      refine ⟨?_, noDup_single_ended⟩
      intro hb
      exfalso
      have hb2 : (if P cur.payload = true then false else b) = true := hb
      by_cases hp : P cur.payload = true
      · rw [if_pos hp] at hb2; exact Bool.noConfusion hb2
      · rw [if_neg hp] at hb2
        obtain ⟨cur0, hc0, hp0⟩ := hI hb2
        rw [hcur] at hc0
        obtain rfl := Option.some.inj hc0
        exact hp hp0
    · rw [finish_not_stale hcur hs]
      exact ⟨hI, noDup_nil⟩

theorem sameSig_hot {P : Payload → Bool} {st : WorkerState} {cur : ActiveSession} {now : Nat}
    {b : Bool} (hI : HotInv P st b) (hcur : st.currentActive = some cur) :
    HotInv P (sameSigStep st cur now).1 (hotAfter P b (sameSigStep st cur now).2) ∧
    NoDupStart P b (sameSigStep st cur now).2 := by
  unfold sameSigStep
  split
  · refine ⟨?_, noDup_single_heartbeat⟩
    intro hb
    have hb2 : b = true := hb
    obtain ⟨cur0, hc0, hp0⟩ := hI hb2
    rw [hcur] at hc0
    obtain rfl := Option.some.inj hc0
    exact ⟨{ cur with lastSeen := now }, rfl, hp0⟩
  · refine ⟨?_, noDup_nil⟩
    intro hb
    have hb2 : b = true := hb
    obtain ⟨cur0, hc0, hp0⟩ := hI hb2
    rw [hcur] at hc0
    obtain rfl := Option.some.inj hc0
    exact ⟨{ cur with lastSeen := now }, rfl, hp0⟩

theorem startNew_hot {P : Payload → Bool} {env : Resolver.Env} {st : WorkerState} {now : Nat}
    {w : Win} {endedEvs : List Event} {b : Bool} (hI : HotInv P st b)
    (hcase : st.currentActive = none ∧ endedEvs = [] ∨
      ∃ cur, st.currentActive = some cur ∧ endedEvs = [Event.ended cur.payload now]) :
    HotInv P (startNew env st now w endedEvs).1
        (hotAfter P b (startNew env st now w endedEvs).2) ∧
    NoDupStart P b (startNew env st now w endedEvs).2 := by
  unfold startNew
  rcases hres : Resolver.resolveDisplayName env st.cache now (wExePath w) w.ownerName w.title
    with _ | ⟨dn, c1⟩
  · -- the resolver threw: state unchanged, only the ended event was sent
    rcases hcase with ⟨hcur, rfl⟩ | ⟨cur, hcur, rfl⟩
    · exact ⟨hI, noDup_nil⟩
    · refine ⟨?_, noDup_single_ended⟩
      intro hb
      exfalso
      have hb2 : (if P cur.payload = true then false else b) = true := hb
      by_cases hp : P cur.payload = true
      · rw [if_pos hp] at hb2; exact Bool.noConfusion hb2
      · rw [if_neg hp] at hb2
        obtain ⟨cur0, hc0, hp0⟩ := hI hb2
        rw [hcur] at hc0
        obtain rfl := Option.some.inj hc0
        exact hp hp0
  · rcases hcase with ⟨hcur, rfl⟩ | ⟨cur, hcur, rfl⟩
    · constructor
      · intro hb
        have hb2 : (if P (mkPayload (wExePath w) w.title w.ownerName w.processId dn now
            (classify (wBase w) (wExePath w))) = true then true else b) = true := hb
        by_cases hp : P (mkPayload (wExePath w) w.title w.ownerName w.processId dn now
            (classify (wBase w) (wExePath w))) = true
        · exact ⟨_, rfl, hp⟩
        · rw [if_neg hp] at hb2
          obtain ⟨cur0, hc0, hp0⟩ := hI hb2
          rw [hcur] at hc0
          exact Option.noConfusion hc0
      · intro X p Y h hP
        rcases X with _ | ⟨x, _ | ⟨y, X⟩⟩
        · simp only [List.nil_append] at h
          obtain ⟨he, -⟩ := List.cons.inj h
          obtain rfl := (Event.update.inj he.symm)
          show b = false
          by_contra hb
          obtain ⟨cur0, hc0, hp0⟩ := hI (by revert hb; cases b <;> simp)
          rw [hcur] at hc0
          exact Option.noConfusion hc0
        · simp at h
        · simp at h
    · constructor
      · intro hb
        have hb2 : (if P (mkPayload (wExePath w) w.title w.ownerName w.processId dn now
            (classify (wBase w) (wExePath w))) = true then true
            else if P cur.payload = true then false else b) = true := hb
        by_cases hp : P (mkPayload (wExePath w) w.title w.ownerName w.processId dn now
            (classify (wBase w) (wExePath w))) = true
        · exact ⟨_, rfl, hp⟩
        · rw [if_neg hp] at hb2
          exfalso
          by_cases hpc : P cur.payload = true
          · rw [if_pos hpc] at hb2; exact Bool.noConfusion hb2
          · rw [if_neg hpc] at hb2
            obtain ⟨cur0, hc0, hp0⟩ := hI hb2
            rw [hcur] at hc0
            obtain rfl := Option.some.inj hc0
            exact hpc hp0
      · intro X p Y h hP
        rcases X with _ | ⟨x, _ | ⟨y, X⟩⟩
        · simp only [List.nil_append] at h
          obtain ⟨he, -⟩ := List.cons.inj h
          exact Event.noConfusion he
        · simp only [List.cons_append, List.nil_append] at h
          obtain ⟨hx, h2⟩ := List.cons.inj h
          obtain ⟨he, -⟩ := List.cons.inj h2
          subst hx
          show hotAfter P b [Event.ended cur.payload now] = false
          have : hotAfter P b [Event.ended cur.payload now] =
              (if P cur.payload = true then false else b) := rfl
          rw [this]
          by_cases hpc : P cur.payload = true
          · rw [if_pos hpc]
          · rw [if_neg hpc]
            by_contra hb
            obtain ⟨cur0, hc0, hp0⟩ := hI (by revert hb; cases b <;> simp)
            rw [hcur] at hc0
            obtain rfl := Option.some.inj hc0
            exact hpc hp0
        · simp at h

theorem pollActive_hot {P : Payload → Bool} {env : Resolver.Env} {st : WorkerState}
    {now : Nat} {pr : Probe} {b : Bool} (hI : HotInv P st b) :
    HotInv P (pollActive env st now pr).1 (hotAfter P b (pollActive env st now pr).2) ∧
    NoDupStart P b (pollActive env st now pr).2 := by
  cases pr with
  | err => exact ⟨hI, noDup_nil⟩
  | noWin => exact finish_hot hI
  | win w =>
    by_cases hex : snapshotExcluded w = true
    · rw [pollActive_excluded hex]
      exact finish_hot hI
    · have hex2 : snapshotExcluded w = false := by revert hex; cases snapshotExcluded w <;> simp
      by_cases hq : snapshotQualifies w = true
      · rcases hcur : st.currentActive with _ | cur
        · rw [pollActive_new_none hex2 hq hcur]
          exact startNew_hot hI (Or.inl ⟨hcur, rfl⟩)
        · by_cases hsig : cur.signature = winSignature w
          · rw [pollActive_same hex2 hq hcur hsig]
            exact sameSig_hot hI hcur
          · rw [pollActive_replace hex2 hq hcur hsig]
            exact startNew_hot hI (Or.inr ⟨cur, hcur, rfl⟩)
      · have hq2 : snapshotQualifies w = false := by revert hq; cases snapshotQualifies w <;> simp
        rw [pollActive_nonqual hex2 hq2]
        exact finish_hot hI

theorem runTicks_hot {P : Payload → Bool} {env : Resolver.Env} :
    ∀ (ticks : List (Nat × Probe)) (st : WorkerState) (b : Bool), HotInv P st b →
      HotInv P (runTicks env st ticks).1 (hotAfter P b (runTicks env st ticks).2) ∧
      NoDupStart P b (runTicks env st ticks).2 := by
  intro ticks
  induction ticks with
  | nil => intro st b hI; exact ⟨hI, noDup_nil⟩
  | cons tk rest ih =>
    intro st b hI
    obtain ⟨tn, tp⟩ := tk
    obtain ⟨hI1, hN1⟩ := @pollActive_hot P env st tn tp b hI
    obtain ⟨hI2, hN2⟩ :=
      ih (pollActive env st tn tp).1 (hotAfter P b (pollActive env st tn tp).2) hI1
    have hrun : runTicks env st ((tn, tp) :: rest) =
        ((runTicks env (pollActive env st tn tp).1 rest).1,
          (pollActive env st tn tp).2 ++ (runTicks env (pollActive env st tn tp).1 rest).2) :=
      rfl
    rw [hrun]
    exact ⟨by rw [hotAfter_append]; exact hI2, noDup_append hN1 hN2⟩

/-- Claim C2: the state type holds at most one session (`Option
ActiveSession`), and over every run from the boot state the event stream
keeps sessions sequential: (i) between any two update events an ended
event occurs; (ii) between two update events of the same signature an
ended event of that signature occurs — never two starts for one signature
without an intervening end; (iii) within a tick that replaces a live
session, the emission is exactly the ended event of the old session
followed by the update of the new one. -/
theorem c2_session_lifecycle :
    (∀ env c ticks X p Y q Z,
      (runTicks env (initState c) ticks).2 =
        X ++ Event.update p :: Y ++ Event.update q :: Z →
      ∃ r m, Event.ended r m ∈ Y) ∧
    (∀ env c ticks X p Y q Z,
      (runTicks env (initState c) ticks).2 =
        X ++ Event.update p :: Y ++ Event.update q :: Z →
      sigOfPayload q = sigOfPayload p →
      ∃ r m, Event.ended r m ∈ Y ∧ sigOfPayload r = sigOfPayload p) ∧
    (∀ env st now pr cur X p Y,
      st.currentActive = some cur →
      (pollActive env st now pr).2 = X ++ Event.update p :: Y →
      (pollActive env st now pr).2 = [Event.ended cur.payload now, Event.update p]) := by
  refine ⟨?_, ?_, ?_⟩
  · intro env c ticks X p Y q Z h
    have base : HotInv (fun _ => true) (initState c) false := fun hb => by simp at hb
    obtain ⟨-, hND⟩ := @runTicks_hot (fun _ => true) env ticks (initState c) false base
    have h2 : (runTicks env (initState c) ticks).2 =
        (X ++ Event.update p :: Y) ++ Event.update q :: Z := by
      rw [h]
    have h3 := hND (X ++ Event.update p :: Y) q Z h2 rfl
    rw [hotAfter_append] at h3
    have h4 : hotAfter (fun _ => true) true Y = false := h3
    obtain ⟨r, m, hm, -⟩ := hot_true_false h4
    exact ⟨r, m, hm⟩
  · intro env c ticks X p Y q Z h hqp
    have base : HotInv (fun r => sigOfPayload r == sigOfPayload p) (initState c) false :=
      fun hb => by simp at hb
    obtain ⟨-, hND⟩ :=
      @runTicks_hot (fun r => sigOfPayload r == sigOfPayload p) env ticks (initState c) false base
    have h2 : (runTicks env (initState c) ticks).2 =
        (X ++ Event.update p :: Y) ++ Event.update q :: Z := by
      rw [h]
    have h3 := hND (X ++ Event.update p :: Y) q Z h2 (by simp [hqp])
    rw [hotAfter_append] at h3
    have hstep : hotStep (fun r => sigOfPayload r == sigOfPayload p)
        (hotAfter (fun r => sigOfPayload r == sigOfPayload p) false X) (Event.update p) =
        true := by
      simp [hotStep]
    have h4 : hotAfter (fun r => sigOfPayload r == sigOfPayload p) true Y = false := by
      have h5 : hotAfter (fun r => sigOfPayload r == sigOfPayload p)
          (hotStep (fun r => sigOfPayload r == sigOfPayload p)
            (hotAfter (fun r => sigOfPayload r == sigOfPayload p) false X)
            (Event.update p)) Y = false := h3
      rwa [hstep] at h5
    obtain ⟨r, m, hm, hPr⟩ := hot_true_false h4
    exact ⟨r, m, hm, by simpa using hPr⟩
  · intro env st now pr cur X p Y hcur h
    cases pr with
    | err =>
      rw [pollActive_err] at h
      exact absurd h (by cases X <;> simp)
    | noWin =>
      rw [pollActive_noWin] at h
      exact absurd (show Event.update p ∈ (finishCurrentIfStale st now).2 by rw [h]; simp)
        (finish_no_update st now p)
    | win w =>
      by_cases hex : snapshotExcluded w = true
      · rw [pollActive_excluded hex] at h
        exact absurd (show Event.update p ∈ (finishCurrentIfStale st now).2 by rw [h]; simp)
          (finish_no_update st now p)
      · have hex2 : snapshotExcluded w = false := by
          revert hex; cases snapshotExcluded w <;> simp
        by_cases hq : snapshotQualifies w = true
        · by_cases hsig : cur.signature = winSignature w
          · exfalso
            rw [pollActive_same hex2 hq hcur hsig] at h
            unfold sameSigStep at h
            split at h
            · rcases X with _ | ⟨x, _ | ⟨y, X⟩⟩ <;> simp at h
            · cases X <;> simp at h
          · rw [pollActive_replace hex2 hq hcur hsig] at h ⊢
            unfold startNew at h ⊢
            rcases hres : Resolver.resolveDisplayName env st.cache now (wExePath w)
                w.ownerName w.title with _ | ⟨dn, c1⟩
            · rw [hres] at h
              exfalso
              have h2 : [Event.ended cur.payload now] = X ++ Event.update p :: Y := h
              rcases X with _ | ⟨x, _ | ⟨y, X⟩⟩ <;> simp at h2
            · rw [hres] at h
              have h2 : [Event.ended cur.payload now,
                  Event.update (mkPayload (wExePath w) w.title w.ownerName w.processId dn now
                    (classify (wBase w) (wExePath w)))] = X ++ Event.update p :: Y := h
              show [Event.ended cur.payload now,
                  Event.update (mkPayload (wExePath w) w.title w.ownerName w.processId dn now
                    (classify (wBase w) (wExePath w)))] =
                [Event.ended cur.payload now, Event.update p]
              rcases X with _ | ⟨x, _ | ⟨y, X⟩⟩
              · exfalso; simp at h2
              · obtain ⟨hx, h3⟩ := List.cons.inj h2
                obtain ⟨hu, hY⟩ := List.cons.inj h3
                rw [hu]
              · exfalso
                have hl := congrArg List.length h2
                simp only [List.length_append, List.length_cons, List.length_nil] at hl
                omega
        · have hq2 : snapshotQualifies w = false := by
            revert hq; cases snapshotQualifies w <;> simp
          rw [pollActive_nonqual hex2 hq2] at h
          exact absurd (show Event.update p ∈ (finishCurrentIfStale st now).2 by rw [h]; simp)
            (finish_no_update st now p)

/-- Witness for C2, conjunct (ii): the run start, stale-end, start-again
produces two updates of one signature with the ended event in between. -/
theorem c2_session_lifecycle_witness :
    ∃ r m, Event.ended r m ∈ [Event.ended (payA 0) 6000] ∧
      sigOfPayload r = sigOfPayload (payA 0) :=
  c2_session_lifecycle.2.1 envW cache0
    [(0, Probe.win winA), (6000, Probe.noWin), (7000, Probe.win winA)]
    [] (payA 0) [Event.ended (payA 0) 6000] (payA 7000) []
    rfl rfl

/-- Claim C7: a snapshot whose basename sits in the launcher or non-game
exclusion set short-circuits the tick to the staleness check alone, so no
update event can be emitted for it, whatever the classifier said. -/
theorem c7_exclusion_gating :
    ∀ env st now w, snapshotExcluded w = true →
      pollActive env st now (Probe.win w) = finishCurrentIfStale st now ∧
      (∀ p, Event.update p ∉ (pollActive env st now (Probe.win w)).2) := by
  intro env st now w hex
  refine ⟨pollActive_excluded hex, ?_⟩
  intro p
  rw [pollActive_excluded hex]
  exact finish_no_update st now p

/-- Witness for C7: `steam.exe` is excluded although the classifier calls
it a game with confidence 0.9, and the tick reduces to the staleness
check. -/
theorem c7_exclusion_gating_witness :
    snapshotExcluded winSteam = true ∧
    classify (wBase winSteam) (wExePath winSteam) = ⟨Cat.game, 9 / 10⟩ ∧
    pollActive envW stX 0 (Probe.win winSteam) = finishCurrentIfStale stX 0 :=
  ⟨by decide, rfl, (c7_exclusion_gating envW stX 0 winSteam (by decide)).1⟩

/-- Claim C5 counterexample: a session is live with last-seen 0; the tick
at 6000 throws in the probe. The claim says staleness is still evaluated
(so the session, stale for more than 5000 ms, is ended); the code jumps to
the catch and neither ends the session nor touches the state. -/
theorem c5_probe_throw_cx :
    ((runTicks envW (initState cache0)
        [(0, Probe.win winA), (6000, Probe.err)]).2.filter isEnded) = [] ∧
    (runTicks envW (initState cache0)
        [(0, Probe.win winA), (6000, Probe.err)]).1.currentActive.map
        (fun s => s.lastSeen) = some 0 ∧
    ACTIVE_STALE_MS < 6000 - 0 :=
  ⟨rfl, rfl, by decide⟩

/-- Claim C5 as amended: a tick whose probe throws is never fatal — it
only logs: the state is unchanged and no event is emitted — but staleness
is NOT evaluated on that tick; the staleness check runs on ticks where
the probe returns (for instance `null`), where a stale session is ended
exactly once. -/
theorem c5_probe_throw_amended :
    (∀ env st now, pollActive env st now Probe.err = (st, [])) ∧
    (∀ env st now cur, st.currentActive = some cur →
      ACTIVE_STALE_MS < now - cur.lastSeen →
      pollActive env st now Probe.noWin =
        ({ st with currentActive := none }, [Event.ended cur.payload now])) := by
  constructor
  · intro env st now
    exact pollActive_err env st now
  · intro env st now cur hcur hs
    rw [pollActive_noWin]
    exact finish_stale hcur hs

/-- Witness for the amended C5: the concrete live state survives an err
tick untouched, and a null tick at 6000 ends it. -/
theorem c5_probe_throw_amended_witness :
    pollActive envW stX 6000 Probe.err = (stX, []) ∧
    pollActive envW stX 6000 Probe.noWin =
      ({ stX with currentActive := none }, [Event.ended sessX.payload 6000]) :=
  ⟨c5_probe_throw_amended.1 envW stX 6000,
    c5_probe_throw_amended.2 envW stX 6000 sessX rfl (by decide)⟩

/-- Claim C3 counterexample: the session started at 0 is not seen again
until 6000 — longer than the 5000 ms staleness threshold — and the tick
at 6000 carries a qualifying snapshot with the same signature. The claim
says an ended event is emitted and a fresh session starts; the code skips
the staleness check on that tick, emits no ended event, and resumes the
old session (started-at stays 0). -/
theorem c3_stale_resume_cx :
    ((runTicks envW (initState cache0)
        [(0, Probe.win winA), (6000, Probe.win winA)]).2.filter isEnded) = [] ∧
    (runTicks envW (initState cache0)
        [(0, Probe.win winA)]).1.currentActive.map (fun s => s.lastSeen) = some 0 ∧
    ACTIVE_STALE_MS < 6000 - 0 ∧
    snapshotQualifies winA = true ∧ snapshotExcluded winA = false ∧
    (runTicks envW (initState cache0)
        [(0, Probe.win winA), (6000, Probe.win winA)]).1.currentActive.map
        (fun s => s.startedAt) = some 0 :=
  ⟨rfl, rfl, by decide, rfl, rfl, rfl⟩

/-- Claim C3 as amended: the staleness check runs on every tick whose
handling reaches it — a null probe, an excluded snapshot, or a
non-qualifying snapshot — and there a session stale for more than the
threshold is ended exactly once and the machine returns to Idle; a
qualifying snapshot from Idle starts a fresh session (started-at = now).
On a tick bearing a qualifying snapshot with the live signature the check
is skipped: the session is resumed (same started-at, refreshed last-seen)
even when the gap exceeded the threshold, and no ended event is emitted. -/
theorem c3_staleness_amended :
    (∀ env st now cur, st.currentActive = some cur →
      ACTIVE_STALE_MS < now - cur.lastSeen →
      pollActive env st now Probe.noWin =
        ({ st with currentActive := none }, [Event.ended cur.payload now])) ∧
    (∀ env st now cur w, st.currentActive = some cur →
      ACTIVE_STALE_MS < now - cur.lastSeen →
      (snapshotExcluded w = true ∨ snapshotQualifies w = false) →
      pollActive env st now (Probe.win w) =
        ({ st with currentActive := none }, [Event.ended cur.payload now])) ∧
    (∀ env c lhb now w n c1, snapshotExcluded w = false → snapshotQualifies w = true →
      Resolver.resolveDisplayName env c now (wExePath w) w.ownerName w.title =
        Except.ok (n, c1) →
      pollActive env ⟨none, lhb, c⟩ now (Probe.win w) =
        (⟨some ⟨winSignature w, w.processId, now, now,
            mkPayload (wExePath w) w.title w.ownerName w.processId n now
              (classify (wBase w) (wExePath w))⟩, now, c1⟩,
          [Event.update (mkPayload (wExePath w) w.title w.ownerName w.processId n now
            (classify (wBase w) (wExePath w)))])) ∧
    (∀ env st now cur w, st.currentActive = some cur →
      snapshotExcluded w = false → snapshotQualifies w = true →
      cur.signature = winSignature w →
      ACTIVE_STALE_MS < now - cur.lastSeen →
      (pollActive env st now (Probe.win w)).1.currentActive =
        some { cur with lastSeen := now } ∧
      (∀ r m, Event.ended r m ∉ (pollActive env st now (Probe.win w)).2)) := by
  refine ⟨?_, ?_, ?_, ?_⟩
  · intro env st now cur hcur hs
    rw [pollActive_noWin]
    exact finish_stale hcur hs
  · intro env st now cur w hcur hs hgate
    rcases hgate with hex | hq
    · rw [pollActive_excluded hex]
      exact finish_stale hcur hs
    · by_cases hex : snapshotExcluded w = true
      · rw [pollActive_excluded hex]
        exact finish_stale hcur hs
      · have hex2 : snapshotExcluded w = false := by
          revert hex; cases snapshotExcluded w <;> simp
        rw [pollActive_nonqual hex2 hq]
        exact finish_stale hcur hs
  · intro env c lhb now w n c1 hex hq hres
    rw [pollActive_new_none hex hq rfl]
    unfold startNew
    rw [hres]
    rfl
  · intro env st now cur w hcur hex hq hsig hs
    rw [pollActive_same hex hq hcur hsig]
    unfold sameSigStep
    split
    · exact ⟨rfl, by intro r m; simp⟩
    · exact ⟨rfl, by intro r m; simp⟩

/-- Witness for the amended C3: a null tick ends the concrete stale
session, while the same-signature tick resumes it without any ended
event. -/
theorem c3_staleness_amended_witness :
    pollActive envW stX 6000 Probe.noWin =
      ({ stX with currentActive := none }, [Event.ended sessX.payload 6000]) ∧
    (pollActive envW stX2 6000 (Probe.win winA)).1.currentActive =
      some { sessA with lastSeen := 6000 } ∧
    (∀ r m, Event.ended r m ∉ (pollActive envW stX2 6000 (Probe.win winA)).2) := by
  refine ⟨c3_staleness_amended.1 envW stX 6000 sessX rfl (by decide), ?_, ?_⟩
  · exact (c3_staleness_amended.2.2.2 envW stX2 6000 sessA winA rfl rfl rfl rfl
      (by decide)).1
  · exact (c3_staleness_amended.2.2.2 envW stX2 6000 sessA winA rfl rfl rfl rfl
      (by decide)).2

/-- Claim C4 counterexample: the signature is the plain `join('|')` of the
four fields, so changes in two fields can compensate: `winS1` (title
`a|b`, process name `c`) and `winS2` (title `a`, process name `b|c`) have
equal signatures although title and process name both differ. Both
snapshots qualify and are not excluded, yet the second tick is treated as
the same session: the two-tick run emits no ended event and only one
update. This refutes the "iff they agree on all four fields" direction. -/
theorem c4_signature_collision_cx :
    winSignature winS1 = winSignature winS2 ∧
    (winS1.title == winS2.title) = false ∧
    (winS1.ownerName == winS2.ownerName) = false ∧
    snapshotExcluded winS1 = false ∧ snapshotQualifies winS1 = true ∧
    snapshotExcluded winS2 = false ∧ snapshotQualifies winS2 = true ∧
    (runTicks envW (initState cache0)
        [(0, Probe.win winS1), (1000, Probe.win winS2)]).2.filter isEnded = [] ∧
    ((runTicks envW (initState cache0)
        [(0, Probe.win winS1), (1000, Probe.win winS2)]).2.filter isUpdate).length = 1 :=
  ⟨rfl, rfl, rfl, rfl, rfl, rfl, rfl, rfl, rfl⟩

/-- Claim C4 as amended: sameness is decided by equality of the
`join('|')` signature strings, not of the field tuples. A title-only
change (the other three fields unchanged) always changes the signature,
so such a snapshot replaces the live session and the tick emits the ended
event of the old session followed by the update of the new one; but equal
signatures do not imply equal field tuples (compensating changes across
fields collide, see the counterexample). -/
theorem c4_signature_amended :
    (∀ w1 w2 : Win, wExePath w1 = wExePath w2 → w1.ownerName = w2.ownerName →
      w1.processId = w2.processId → w1.title ≠ w2.title →
      winSignature w1 ≠ winSignature w2) ∧
    (∀ env st now cur w n c1, st.currentActive = some cur →
      snapshotExcluded w = false → snapshotQualifies w = true →
      cur.signature ≠ winSignature w →
      Resolver.resolveDisplayName env st.cache now (wExePath w) w.ownerName w.title =
        Except.ok (n, c1) →
      (pollActive env st now (Probe.win w)).2 =
        [Event.ended cur.payload now,
          Event.update (mkPayload (wExePath w) w.title w.ownerName w.processId n now
            (classify (wBase w) (wExePath w)))]) := by
  constructor
  · intro w1 w2 hp ho hid ht hsig
    apply ht
    have hd := congrArg String.data hsig
    unfold winSignature at hd
    simp only [String.data_append, List.append_assoc, hp, ho, hid] at hd
    have h1 := List.append_cancel_left hd
    have h2 := List.append_cancel_left h1
    have h3 := List.append_cancel_right h2
    exact String.ext h3
  · intro env st now cur w n c1 hcur hex hq hsig hres
    rw [pollActive_replace hex hq hcur hsig]
    unfold startNew
    rw [hres]
    rfl

/-- Witness for the amended C4: `winB` is `winA` with only the title
changed and their signatures differ; replacing the live session `sessX`
with `winA` emits exactly the ended-then-update pair. -/
theorem c4_signature_amended_witness :
    (winSignature winA == winSignature winB) = false ∧
    (pollActive envW stX 1000 (Probe.win winA)).2 =
      [Event.ended sessX.payload 1000,
        Event.update (mkPayload (wExePath winA) winA.title winA.ownerName winA.processId
          "Fun Game" 1000 (classify (wBase winA) (wExePath winA)))] :=
  ⟨beq_eq_false_iff_ne.mpr
      (c4_signature_amended.1 winA winB rfl rfl rfl (by decide)),
    c4_signature_amended.2 envW stX 1000 sessX winA "Fun Game"
      (Resolver.putCache cache0 1000 "c:/steamapps/common/mygame/game.exe" "Fun Game")
      rfl rfl rfl (by decide) rfl⟩

end SessionMachine

end EchoTalk
